import Mathlib

/-!
# Verification of the `configure.py` layered-configuration model

Shallow embedding of the configuration model of `bin/configure.py`
(dmrub/ansible-project): POSIX path handling as used by `pathlib` /
`os.path`, the marshmallow schema (`AnsibleConfigSchema` with `PathField`
and `VaultIdField`), the structural merger (`AttrMerger`,
`AnsibleConfig.merge`), the `Configurator` orchestration
(`config_to_dict`, `config_changed`, `save`) and vault-file detection
(`is_vault`).

Python strings are embedded as `List Char`; filesystem-dependent
operations (`os.path.exists` / `os.path.realpath`, used by
`auto_realpath`) are parameterised by an explicit filesystem oracle `Fs`.
-/

namespace AnsibleConfigurator

/-- Python strings are modelled as lists of characters. -/
abbrev Str := List Char

/-- A `pathlib.PurePosixPath`: an absolute/relative flag plus the parsed
components (`PurePath.parts`, without the root entry).  The rare POSIX
double-slash anchor `//` is represented like a single `/` root; this only
changes the representation of such paths, not any behaviour the claims
mention. -/
structure PyPath where
  absolute : Bool
  parts : List Str
deriving DecidableEq, Repr

/-- Join components with a separator (no trailing/leading separator). -/
def joinSep (sep : Char) : List Str → Str
  | [] => []
  | [x] => x
  | x :: y :: rest => x ++ sep :: joinSep sep (y :: rest)

/-- Split a string at every occurrence of `sep` (like Python
`str.split(sep)`): `splitSep` of the empty string is `[[]]`. -/
def splitSep (sep : Char) : Str → List Str
  | [] => [[]]
  | c :: rest =>
    match splitSep sep rest with
    | [] => [[c]]
    | r :: rs => if c = sep then [] :: r :: rs else (c :: r) :: rs

/-- Model of `str(path)` of `pathlib`: `/`-prefixed for absolute paths, `"."` for
the empty relative path. -/
def pathStr (p : PyPath) : Str :=
  if p.absolute then '/' :: joinSep '/' p.parts
  else if p.parts = [] then ['.'] else joinSep '/' p.parts

/-- Model of `pathlib.Path(s)`: leading `/` marks an absolute path; empty and `"."`
components are dropped during parsing. -/
def parsePath (s : Str) : PyPath :=
  { absolute := match s with
      | c :: _ => c = '/'
      | [] => false
    parts := (splitSep '/' s).filter (fun c => decide (c ≠ [] ∧ c ≠ ['.'])) }

/-- A component as produced by `pathlib` parsing: non-empty, free of the
separator and not the `"."` marker. -/
def goodComp (c : Str) : Prop := c ≠ [] ∧ '/' ∉ c ∧ c ≠ ['.']

instance (c : Str) : Decidable (goodComp c) := by
  unfold goodComp; infer_instance

/-- Every component of the path is a well-formed `pathlib` component —
true of every `pathlib.Path` value the Python program can hold. -/
def PathWF (p : PyPath) : Prop := ∀ c ∈ p.parts, goodComp c

instance (p : PyPath) : Decidable (PathWF p) := by
  unfold PathWF; infer_instance

/-- Model of `pathlib` `/` operator: an absolute right operand discards the left
operand, otherwise components are concatenated. -/
def joinPath (a b : PyPath) : PyPath :=
  if b.absolute then b else { absolute := a.absolute, parts := a.parts ++ b.parts }

/-- Model of `PurePath.relative_to`: succeeds iff the base's components (and root)
are a prefix of the path's, producing the relative remainder;
`ValueError` is modelled as `none`. -/
def relativeTo (p base : PyPath) : Option PyPath :=
  if p.absolute = base.absolute ∧ base.parts <+: p.parts then
    some { absolute := false, parts := p.parts.drop base.parts.length }
  else none

/-- Model of `os.path.expanduser` with home directory `home`: a leading `~` alone
or `~/`-prefix expands to `home`; a `~user` prefix is a user-database
lookup, environment-dependent, modelled as the unknown-user behaviour
(string returned unchanged).  Strings not starting with `~` are returned
unchanged. -/
def expanduser (home : PyPath) (s : Str) : Str :=
  if s = ['~'] then pathStr home
  else if ['~', '/'].isPrefixOf s then pathStr home ++ s.drop 1
  else s

/-! ## Filesystem oracle and `auto_realpath` -/

/-- Filesystem oracle: `os.path.exists` and `os.path.realpath` as seen by
the process (working-directory relative for relative paths). -/
structure Fs where
  pathExists : Str → Bool
  realpath : Str → Str

/-- Model of `os.path.isab` on the string form of a path. -/
def isAbsStr (s : Str) : Bool :=
  match s with
  | c :: _ => c = '/'
  | [] => false

/-- Model of `os.path.join` for two operands. -/
def osJoin (a b : Str) : Str :=
  if isAbsStr b then b
  else if a = [] then b
  else if a.getLast? = some '/' then a ++ b
  else a ++ '/' :: b

/-- Model of `auto_realpath` of `configure.py`: canonicalise a path through the
filesystem when the candidate exists, otherwise fall back to the joined
path (`force_abs_path`) or the original. -/
def auto_realpath (fs : Fs) (path : Str) (base_dir : Option Str)
    (force_abs_path : Bool) : Str :=
  if isAbsStr path && fs.pathExists path then fs.realpath path
  else
    let abs_path := match base_dir with
      | none => path
      | some b => osJoin b path
    if fs.pathExists abs_path then fs.realpath abs_path
    else if force_abs_path then abs_path
    else path

/-! ## VaultId and the schema fields -/

/-- Model of `VaultId`: a label plus a source (path string, `"prompt"`, or empty). -/
structure VaultId where
  label : Str
  source : Str
deriving DecidableEq, Repr

/-- Model of `VaultId.id` / `str(VaultId)`: `label + "@" + source`. -/
def vaultIdStr (v : VaultId) : Str := v.label ++ '@' :: v.source

/-- Python `s.split(sep, 1)` when `sep in s`: split at the first occurrence. -/
def splitFirst (sep : Char) : Str → Option (Str × Str)
  | [] => none
  | c :: rest =>
    if c = sep then some ([], rest)
    else (splitFirst sep rest).map (fun p => (c :: p.1, p.2))

/-- Model of `VaultId.__init__(vault_id=s)` (with `apply_realpath=True`,
`base_dir=None`, the combination used when decoding and in the setters):
split at the first `@` (whole string is the label and the source is empty
when there is no `@`), then `auto_realpath` a non-empty non-`"prompt"`
source. -/
def vaultIdOfString (fs : Fs) (s : Str) : VaultId :=
  match splitFirst '@' s with
  | some (label, source) =>
    { label := label
      source := if source ≠ [] ∧ source ≠ ("prompt").data then
          auto_realpath fs source none true
        else source }
  | none => { label := s, source := [] }

/-- Model of `PathField._serialize`: in relative mode try `relative_to(config_dir)`
falling back to the absolute form on `ValueError`; in absolute mode just
`str(value)`. -/
def pathFieldSerialize (relMode : Bool) (configDir : PyPath) (p : PyPath) : Str :=
  if relMode then
    match relativeTo p configDir with
    | some r => pathStr r
    | none => pathStr p
  else pathStr p

/-- Model of `PathField._deserialize`: `config_dir / os.path.expanduser(value)`. -/
def pathFieldDeserialize (home configDir : PyPath) (s : Str) : PyPath :=
  joinPath configDir (parsePath (expanduser home s))

/-- Model of `VaultIdField._serialize`: in relative mode, `VaultId.relative_to`
(which relativises a path-valued source and raises `ValueError` — caught,
leaving the value unchanged), then `str`. -/
def vaultIdFieldSerialize (relMode : Bool) (configDir : PyPath) (v : VaultId) : Str :=
  if relMode then
    vaultIdStr
      (if v.source ≠ [] ∧ v.source ≠ ("prompt").data then
        match relativeTo (parsePath v.source) configDir with
        | some r => { label := v.label, source := pathStr r }
        | none => v
      else v)
  else vaultIdStr v

/-- Model of `VaultIdField._deserialize`: build the `VaultId` from the string, then
re-anchor a path-valued source at `config_dir` (after `expanduser` on its
normalised string form). -/
def vaultIdFieldDeserialize (fs : Fs) (home configDir : PyPath) (s : Str) : VaultId :=
  let v := vaultIdOfString fs s
  if v.source ≠ [] ∧ v.source ≠ ("prompt").data then
    { label := v.label
      source := pathStr (joinPath configDir
        (parsePath (expanduser home (pathStr (parsePath v.source))))) }
  else v

/-! ## Raw YAML values and the schema -/

/-- A primitive value appearing in the raw mapping for this schema. -/
inductive Prim where
  | pnull
  | pstr (s : Str)
  | pint (n : Int)
deriving DecidableEq, Repr

/-- Python `str()` of a primitive value (as applied by marshmallow's
`String` field on dump). -/
def pyStr : Prim → Str
  | .pstr s => s
  | .pint n => (toString n).data
  | .pnull => ("None").data

/-- A raw value of the `ansible` mapping: a primitive, a list of
primitives (the path/vault-id lists) or a string-keyed mapping of
primitives (`env_vars`). -/
inductive RawVal where
  | prim (p : Prim)
  | rlist (xs : List Prim)
  | rmap (kvs : List (Str × Prim))
deriving DecidableEq, Repr

/-- The field names of `AnsibleConfigSchema`, as an enumeration (the raw
YAML keys `config_file`, `inventories`, … in declaration order). -/
inductive FieldKey where
  | config_file | inventories | vault_ids | vault_password_files
  | user_scripts | vars_files | vault_files | private_key_file
  | user | vault_encrypt_identity | log_path | env_vars
deriving DecidableEq, Repr

/-- The `AnsibleConfig` dataclass (field defaults as in the source). -/
structure AnsibleConfig where
  config_file : Option PyPath := none
  inventories : List PyPath := []
  vault_ids : List VaultId := []
  vault_password_files : List PyPath := []
  user_scripts : List PyPath := []
  vars_files : List PyPath := []
  vault_files : List PyPath := []
  private_key_file : Option PyPath := none
  user : Option Str := none
  vault_encrypt_identity : Option Str := none
  log_path : Option PyPath := none
  env_vars : List (Str × Prim) := []
deriving DecidableEq, Repr

/-- Is a raw value the serialisation of `None`? -/
def isNullVal : RawVal → Bool
  | .prim .pnull => true
  | _ => false

/-- Dump of an optional path field (`None` dumps to null). -/
def optPathRaw (relMode : Bool) (d : PyPath) : Option PyPath → RawVal
  | none => .prim .pnull
  | some p => .prim (.pstr (pathFieldSerialize relMode d p))

/-- Dump of an optional string field. -/
def optStrRaw : Option Str → RawVal
  | none => .prim .pnull
  | some s => .prim (.pstr s)

/-- Model of `BaseSchema.remove_none_values` (`post_dump`): drop exactly the keys
whose value is `None`. -/
def removeNoneValues (l : List (FieldKey × RawVal)) : List (FieldKey × RawVal) :=
  l.filter (fun kv => !(isNullVal kv.2))

/-- The per-field dump of `AnsibleConfigSchema` (fields in declaration
order, before `remove_none_values` runs). -/
def encodeFields (relMode : Bool) (d : PyPath) (c : AnsibleConfig) :
    List (FieldKey × RawVal) :=
  [
    (.config_file, optPathRaw relMode d c.config_file),
    (.inventories, .rlist (c.inventories.map (fun p => .pstr (pathFieldSerialize relMode d p)))),
    (.vault_ids, .rlist (c.vault_ids.map (fun v => .pstr (vaultIdFieldSerialize relMode d v)))),
    (.vault_password_files, .rlist (c.vault_password_files.map (fun p => .pstr (pathFieldSerialize relMode d p)))),
    (.user_scripts, .rlist (c.user_scripts.map (fun p => .pstr (pathFieldSerialize relMode d p)))),
    (.vars_files, .rlist (c.vars_files.map (fun p => .pstr (pathFieldSerialize relMode d p)))),
    (.vault_files, .rlist (c.vault_files.map (fun p => .pstr (pathFieldSerialize relMode d p)))),
    (.private_key_file, optPathRaw relMode d c.private_key_file),
    (.user, optStrRaw c.user),
    (.vault_encrypt_identity, optStrRaw c.vault_encrypt_identity),
    (.log_path, optPathRaw relMode d c.log_path),
    (.env_vars, .rmap (c.env_vars.map (fun kv => (kv.1, Prim.pstr (pyStr kv.2)))))
  ]

/-- Model of `AnsibleConfigSchema` dump of an `AnsibleConfig`: the per-field dump
followed by the `remove_none_values` `post_dump` hook. -/
def encodeAnsible (relMode : Bool) (d : PyPath) (c : AnsibleConfig) :
    List (FieldKey × RawVal) :=
  removeNoneValues (encodeFields relMode d c)

/-- Key lookup in a raw mapping. -/
def lookupKey (k : FieldKey) : List (FieldKey × RawVal) → Option RawVal
  | [] => none
  | kv :: rest => if kv.1 = k then some kv.2 else lookupKey k rest

/-- Load of an optional path field: missing or explicit null gives `None`
(`allow_none=True`), a string is deserialised, anything else is a
`ValidationError`. -/
def decodeOptPath (home d : PyPath) : Option RawVal → Except Unit (Option PyPath)
  | none => .ok none
  | some (.prim .pnull) => .ok none
  | some (.prim (.pstr s)) => .ok (some (pathFieldDeserialize home d s))
  | some _ => .error ()

/-- Load of an optional plain-string field. -/
def decodeOptStr : Option RawVal → Except Unit (Option Str)
  | none => .ok none
  | some (.prim .pnull) => .ok none
  | some (.prim (.pstr s)) => .ok (some s)
  | some _ => .error ()

/-- All elements must be strings (marshmallow `String._deserialize`
raises on anything else, including null). -/
def primStrs : List Prim → Except Unit (List Str)
  | [] => .ok []
  | .pstr s :: rest => (primStrs rest).map (fun l => s :: l)
  | _ => .error ()

/-- Load of a `fields.List(PathField)` field: missing means the dataclass
default `[]`. -/
def decodePathList (home d : PyPath) : Option RawVal → Except Unit (List PyPath)
  | none => .ok []
  | some (.rlist xs) => (primStrs xs).map (List.map (pathFieldDeserialize home d))
  | some _ => .error ()

/-- Load of the `fields.List(VaultIdField)` field. -/
def decodeVaultIdList (fs : Fs) (home d : PyPath) :
    Option RawVal → Except Unit (List VaultId)
  | none => .ok []
  | some (.rlist xs) => (primStrs xs).map (List.map (vaultIdFieldDeserialize fs home d))
  | some _ => .error ()

/-- All mapping values must be strings (`fields.Dict(keys=Str, values=Str)`). -/
def envPairs : List (Str × Prim) → Except Unit (List (Str × Prim))
  | [] => .ok []
  | (k, .pstr s) :: rest => (envPairs rest).map (fun l => (k, Prim.pstr s) :: l)
  | _ => .error ()

/-- Load of the `env_vars` dict field. -/
def decodeEnvVars : Option RawVal → Except Unit (List (Str × Prim))
  | none => .ok []
  | some (.rmap kvs) => envPairs kvs
  | some _ => .error ()

/-- Model of `AnsibleConfigSchema` load of the `ansible` raw mapping into an
`AnsibleConfig` (missing fields take the dataclass defaults; any field
validation error aborts the load). -/
def decodeAnsible (fs : Fs) (home d : PyPath) (raw : List (FieldKey × RawVal)) :
    Except Unit AnsibleConfig := do
  let config_file ← decodeOptPath home d (lookupKey .config_file raw)
  let inventories ← decodePathList home d (lookupKey .inventories raw)
  let vault_ids ← decodeVaultIdList fs home d (lookupKey .vault_ids raw)
  let vault_password_files ← decodePathList home d (lookupKey .vault_password_files raw)
  let user_scripts ← decodePathList home d (lookupKey .user_scripts raw)
  let vars_files ← decodePathList home d (lookupKey .vars_files raw)
  let vault_files ← decodePathList home d (lookupKey .vault_files raw)
  let private_key_file ← decodeOptPath home d (lookupKey .private_key_file raw)
  let user ← decodeOptStr (lookupKey .user raw)
  let vault_encrypt_identity ← decodeOptStr (lookupKey .vault_encrypt_identity raw)
  let log_path ← decodeOptPath home d (lookupKey .log_path raw)
  let env_vars ← decodeEnvVars (lookupKey .env_vars raw)
  return { config_file, inventories, vault_ids, vault_password_files, user_scripts,
           vars_files, vault_files, private_key_file, user, vault_encrypt_identity,
           log_path, env_vars }

/-! ## Merger -/

/-- Model of `AttrMerger.merge_attr` on a list-valued attribute with dotted name
`name`: replace when the name is in the replace set, otherwise append the
overlay items not already present in the base list. -/
def listMergeAttr {α : Type} [DecidableEq α] (replaceVars : List Str) (name : Str)
    (this_value that_value : List α) : List α :=
  if name ∈ replaceVars then that_value
  else this_value ++ that_value.filter (fun item => decide (item ∉ this_value))

/-- Model of `AnsibleConfig.merge` as invoked from `MainConfig.merge` (so the
dotted attribute names carry the `ansible.` prefix).  `config_file` and
the trailing scalars are assigned from the overlay unconditionally;
`env_vars` is a dict, not a `Sequence`, so `merge_attr` overwrites it with
the overlay's value in both the replace and the default branch. -/
def ansibleMerge (replaceVars : List Str) (b o : AnsibleConfig) : AnsibleConfig :=
  { config_file := o.config_file
    inventories := listMergeAttr replaceVars ("ansible.inventories").data
      b.inventories o.inventories
    vault_ids := listMergeAttr replaceVars ("ansible.vault_ids").data
      b.vault_ids o.vault_ids
    vault_password_files := listMergeAttr replaceVars ("ansible.vault_password_files").data
      b.vault_password_files o.vault_password_files
    user_scripts := listMergeAttr replaceVars ("ansible.user_scripts").data
      b.user_scripts o.user_scripts
    vars_files := listMergeAttr replaceVars ("ansible.vars_files").data
      b.vars_files o.vars_files
    vault_files := listMergeAttr replaceVars ("ansible.vault_files").data
      b.vault_files o.vault_files
    env_vars := o.env_vars
    private_key_file := o.private_key_file
    user := o.user
    vault_encrypt_identity := o.vault_encrypt_identity
    log_path := o.log_path }

/-- Model of `ConfigContext` (the anchor for path (de)serialisation). -/
structure ConfigContext where
  config_file : PyPath
  create_model : Bool := true
  serialize_relative_paths : Bool := true
deriving DecidableEq, Repr

/-- Model of `MainConfig`: the `ansible` settings plus the context they were
loaded under. -/
structure MainConfig where
  ansible : AnsibleConfig := {}
  config_context : Option ConfigContext := none
deriving DecidableEq, Repr

/-- Model of `MainConfig.merge`: pushes the `ansible` attribute name and merges the
nested settings; the context is taken from the overlay. -/
def mainMerge (replaceVars : List Str) (b o : MainConfig) : MainConfig :=
  { ansible := ansibleMerge replaceVars b.ansible o.ansible
    config_context := o.config_context }

/-- Model of `AttrMerger.__init__`: `replace_vars = set(merge_options.get('$replace_vars', []))`. -/
def attrMergerReplaceVars (mergeOptions : List (Str × List Str)) : List Str :=
  ((mergeOptions.find? (fun kv => decide (kv.1 = ("$replace_vars").data))).map
    (fun kv => kv.2)).getD []

/-! ## Configurator -/

/-- Model of `PurePath.parent`: drop the last component. -/
def pathParent (p : PyPath) : PyPath :=
  { absolute := p.absolute, parts := p.parts.dropLast }

/-- The `Configurator` state: the loaded `MainConfig` plus the snapshot
`_initial_config_dict` taken at the end of `__init__`. -/
structure Configurator where
  config : MainConfig
  initial_config_dict : List (FieldKey × RawVal)
deriving DecidableEq, Repr

/-- Model of `Configurator.config_to_dict`: re-serialise the current settings with
`serialize_relative_paths=False` (the config dir is then irrelevant; a
missing context, which would raise in Python, is given a dummy dir). -/
def configToDict (st : Configurator) : List (FieldKey × RawVal) :=
  let d := match st.config.config_context with
    | some cc => pathParent cc.config_file
    | none => { absolute := false, parts := [] }
  encodeAnsible false d st.config.ansible

/-- Model of `Configurator.__init__`, single-configuration-file path: `schema.load`
of the raw mapping (after the `CONFIG_DEFAULTS` raw-level pre-merge, which
happens before this point), then snapshot `config_to_dict()`. -/
def loadConfigurator (fs : Fs) (home : PyPath) (config_file : PyPath)
    (raw : List (FieldKey × RawVal)) : Except Unit Configurator :=
  (decodeAnsible fs home (pathParent config_file) raw).map (fun a =>
    { config := { ansible := a, config_context := some { config_file := config_file } }
      initial_config_dict := encodeAnsible false (pathParent config_file) a })

/-- Model of `Configurator.config_changed`: structural `!=` between the re-dump and
the snapshot. -/
def configChanged (st : Configurator) : Bool :=
  !(configToDict st == st.initial_config_dict)

/-- The state after a setter call has left the settings aggregate equal to
`a` (every `set_ansible_*` accessor mutates exactly `_config.ansible`). -/
def withSettings (st : Configurator) (a : AnsibleConfig) : Configurator :=
  { st with config := { st.config with ansible := a } }

/-- Python `dict` construction from key/value pairs: a repeated key
overwrites the value in place, a fresh key appends. -/
def envDictInsert (acc : List (Str × Prim)) (k : Str) (v : Prim) : List (Str × Prim) :=
  if acc.any (fun kv => kv.1 == k) then
    acc.map (fun kv => if kv.1 == k then (kv.1, v) else kv)
  else acc ++ [(k, v)]

/-- Python dict comprehension over a list of pairs. -/
def pyDictOfPairs (l : List (Str × Prim)) : List (Str × Prim) :=
  l.foldl (fun acc kv => envDictInsert acc kv.1 kv.2) []

/-- Model of `Configurator.set_ansible_env_vars`:
`{str(k): v for k, v in value.items()}` — keys are stringified, values are
stored as given. -/
def setAnsibleEnvVars (st : Configurator) (value : List (Prim × Prim)) : Configurator :=
  withSettings st { st.config.ansible with
    env_vars := pyDictOfPairs (value.map (fun kv => (pyStr kv.1, kv.2))) }

/-- Truthiness filter of `set_ansible_vault_ids` (`if i`): empty strings
are dropped, objects are truthy. -/
def truthyIdArg : Sum Str VaultId → Bool
  | .inl s => !(s.isEmpty)
  | .inr _ => true

/-- Model of `Configurator.set_ansible_vault_ids`: wrap plain strings with
`VaultId(i)`, keep `VaultId` instances as they are. -/
def setAnsibleVaultIds (fs : Fs) (st : Configurator)
    (value : List (Sum Str VaultId)) : Configurator :=
  withSettings st { st.config.ansible with
    vault_ids := (value.filter truthyIdArg).map (fun i =>
      match i with
      | .inl s => vaultIdOfString fs s
      | .inr v => v) }

/-- Model of `Configurator.set_ansible_user`. -/
def setAnsibleUser (st : Configurator) (value : Option Str) : Configurator :=
  withSettings st { st.config.ansible with user := value }

/-! ## Saving -/

/-- Outcome oracle for the two fallible filesystem steps of a save. -/
structure SaveFs where
  backupOk : Bool
  writeOk : Bool

/-- Model of `backup_file`: renames the existing target to the first unused
`~`-suffixed name; an OS failure surfaces as an exception. -/
def backupFile (sfs : SaveFs) : Except Unit Unit :=
  if sfs.backupOk then .ok () else .error ()

/-- The `open`/`write` step of `save_config_dict`; an OS failure surfaces
as an exception. -/
def writeFile (sfs : SaveFs) : Except Unit Unit :=
  if sfs.writeOk then .ok () else .error ()

/-- Model of `save_config_dict`: both the backup step and the write step catch
their exceptions and turn them into a `False` return. -/
def saveConfigDict (sfs : SaveFs) (do_backup : Bool) : Bool :=
  if do_backup then
    match backupFile sfs with
    | .error _ => false
    | .ok _ =>
      match writeFile sfs with
      | .error _ => false
      | .ok _ => true
  else
    match writeFile sfs with
    | .error _ => false
    | .ok _ => true

/-- Model of `Configurator.save`: result plus whether `save_config_dict` was
reached (second component `false` means the early no-op return fired). -/
def saveConfigurator (st : Configurator) (filename : Option PyPath)
    (force do_backup : Bool) (sfs : SaveFs) : Bool × Bool :=
  match filename with
  | some _ => (saveConfigDict sfs do_backup, true)
  | none =>
    if !force && !(configChanged st) then (false, false)
    else (saveConfigDict sfs do_backup, true)

/-! ## Vault detection -/

/-- Model of `ANSIBLE_VAULT_MAGIC = b"$ANSIBLE_VAULT;"` as a byte list. -/
def ANSIBLE_VAULT_MAGIC : List Nat := (("$ANSIBLE_VAULT;").data).map Char.toNat

/-- Model of `is_vault`: a non-existent file is not a vault; otherwise read the
first `len(magic)` bytes (fewer for a shorter file) and compare. -/
def isVault (file : Option (List Nat)) : Bool :=
  match file with
  | none => false
  | some bytes => bytes.take ANSIBLE_VAULT_MAGIC.length == ANSIBLE_VAULT_MAGIC

instance {ε α : Type} [DecidableEq ε] [DecidableEq α] : DecidableEq (Except ε α) :=
  fun a b =>
    match a, b with
    | .ok x, .ok y =>
      if h : x = y then isTrue (by rw [h]) else isFalse (fun hh => h (Except.ok.inj hh))
    | .error e, .error f =>
      if h : e = f then isTrue (by rw [h]) else isFalse (fun hh => h (Except.error.inj hh))
    | .ok _, .error _ => isFalse Except.noConfusion
    | .error _, .ok _ => isFalse Except.noConfusion

/-! ## Round-trip side conditions -/

/-- The first component of a relative component list does not begin with
`~` (so `os.path.expanduser` leaves its string form unchanged). -/
def headNoTilde (l : List Str) : Prop :=
  match l with
  | [] => True
  | c :: _ => c.head? ≠ some '~'

instance (l : List Str) : Decidable (headNoTilde l) :=
  match l with
  | [] => isTrue trivial
  | c :: _ => inferInstanceAs (Decidable (c.head? ≠ some '~'))

/-- A stored path that survives relative serialisation and decoding:
well-formed, absolute, lying under the config directory, and whose
relative form does not begin with `~`. -/
def PathRT (d p : PyPath) : Prop :=
  PathWF p ∧ p.absolute = true ∧ d.parts <+: p.parts ∧
  headNoTilde (p.parts.drop d.parts.length)

instance (d p : PyPath) : Decidable (PathRT d p) := by
  unfold PathRT; infer_instance

/-- A vault-id source string that survives relative serialisation: the
canonical string of a well-formed absolute path under the config
directory, whose relative form does not begin with `~`, does not read
`prompt` (which decode would treat as the prompt marker), and does not
name an existing file (which `auto_realpath` would canonicalise). -/
def SourcePathRT (fs : Fs) (d : PyPath) (s : Str) : Prop :=
  s = pathStr (parsePath s) ∧ PathRT d (parsePath s) ∧
  pathStr { absolute := false, parts := ((parsePath s).parts.drop d.parts.length) }
    ≠ ("prompt").data ∧
  fs.pathExists
    (pathStr { absolute := false, parts := ((parsePath s).parts.drop d.parts.length) })
    = false

instance (fs : Fs) (d : PyPath) (s : Str) : Decidable (SourcePathRT fs d s) := by
  unfold SourcePathRT; infer_instance

/-- A vault identity that survives relative serialisation: label free of
`@` (decode splits at the first `@`), and a source that is empty, the
`prompt` marker, or a round-trippable path string. -/
def VaultIdRT (fs : Fs) (d : PyPath) (v : VaultId) : Prop :=
  '@' ∉ v.label ∧
  (v.source = [] ∨ v.source = ("prompt").data ∨ SourcePathRT fs d v.source)

instance (fs : Fs) (d : PyPath) (v : VaultId) : Decidable (VaultIdRT fs d v) := by
  unfold VaultIdRT; infer_instance

/-- Round-trip side condition on an optional path field. -/
def OptPathRT (d : PyPath) : Option PyPath → Prop
  | none => True
  | some p => PathRT d p

instance (d : PyPath) (o : Option PyPath) : Decidable (OptPathRT d o) :=
  match o with
  | none => isTrue trivial
  | some p => inferInstanceAs (Decidable (PathRT d p))

/-- All round-trip side conditions on a settings aggregate: every stored
path under the config directory (with a `~`-free relative form), every
vault identity well-behaved, and every env value a string. -/
def SettingsRT (fs : Fs) (d : PyPath) (c : AnsibleConfig) : Prop :=
  OptPathRT d c.config_file ∧
  (∀ p ∈ c.inventories, PathRT d p) ∧
  (∀ v ∈ c.vault_ids, VaultIdRT fs d v) ∧
  (∀ p ∈ c.vault_password_files, PathRT d p) ∧
  (∀ p ∈ c.user_scripts, PathRT d p) ∧
  (∀ p ∈ c.vars_files, PathRT d p) ∧
  (∀ p ∈ c.vault_files, PathRT d p) ∧
  OptPathRT d c.private_key_file ∧
  OptPathRT d c.log_path ∧
  (∀ kv ∈ c.env_vars, kv.2 = Prim.pstr (pyStr kv.2))

instance (fs : Fs) (d : PyPath) (c : AnsibleConfig) : Decidable (SettingsRT fs d c) := by
  unfold SettingsRT; infer_instance

/-- A vault identity whose absolute-mode serialisation is injective and
decodable: `@`-free label and an empty, `prompt`, or canonical-absolute
non-existing source. -/
def VaultIdAbsRT (fs : Fs) (v : VaultId) : Prop :=
  '@' ∉ v.label ∧
  (v.source = [] ∨ v.source = ("prompt").data ∨
    (v.source = pathStr (parsePath v.source) ∧ (parsePath v.source).absolute = true ∧
     fs.pathExists v.source = false))

instance (fs : Fs) (v : VaultId) : Decidable (VaultIdAbsRT fs v) := by
  unfold VaultIdAbsRT; infer_instance

/-- Optional path that is well-formed and absolute. -/
def OptPathWFA : Option PyPath → Prop
  | none => True
  | some p => PathWF p ∧ p.absolute = true

instance (o : Option PyPath) : Decidable (OptPathWFA o) :=
  match o with
  | none => isTrue trivial
  | some p => inferInstanceAs (Decidable (PathWF p ∧ p.absolute = true))

/-- Well-behaved settings, as produced by loading and by the normalising
setters: all stored paths well-formed and absolute, vault labels `@`-free
with canonical sources, env values strings.  On such settings the
absolute-mode serialisation is injective. -/
def GoodSettings (fs : Fs) (c : AnsibleConfig) : Prop :=
  OptPathWFA c.config_file ∧
  (∀ p ∈ c.inventories, PathWF p ∧ p.absolute = true) ∧
  (∀ v ∈ c.vault_ids, VaultIdAbsRT fs v) ∧
  (∀ p ∈ c.vault_password_files, PathWF p ∧ p.absolute = true) ∧
  (∀ p ∈ c.user_scripts, PathWF p ∧ p.absolute = true) ∧
  (∀ p ∈ c.vars_files, PathWF p ∧ p.absolute = true) ∧
  (∀ p ∈ c.vault_files, PathWF p ∧ p.absolute = true) ∧
  OptPathWFA c.private_key_file ∧
  OptPathWFA c.log_path ∧
  (∀ kv ∈ c.env_vars, kv.2 = Prim.pstr (pyStr kv.2))

instance (fs : Fs) (c : AnsibleConfig) : Decidable (GoodSettings fs c) := by
  unfold GoodSettings; infer_instance

/-! ## Concrete fixtures used by witnesses and counterexamples -/

/-- An inert filesystem: no path exists, so `auto_realpath` never
canonicalises. -/
def fs0 : Fs := { pathExists := fun _ => false, realpath := fun s => s }

/-- A home directory `/root`. -/
def home0 : PyPath := { absolute := true, parts := [("root").data] }

/-- A configuration file `/cfg/config.yml`. -/
def cfgFile0 : PyPath := { absolute := true, parts := [("cfg").data, ("config.yml").data] }

/-- The directory `/cfg` of `cfgFile0`. -/
def dir0 : PyPath := { absolute := true, parts := [("cfg").data] }

/-- The path `/a`. -/
def pA : PyPath := { absolute := true, parts := [("a").data] }

/-- The path `/b`. -/
def pB : PyPath := { absolute := true, parts := [("b").data] }

/-- A Configurator holding default settings loaded from `/cfg/config.yml`. -/
def stEmpty : Configurator :=
  { config := { ansible := {}, config_context := some { config_file := cfgFile0 } }
    initial_config_dict := encodeAnsible false (pathParent cfgFile0) {} }

/-- Merge options declaring `ansible.inventories` for replacement. -/
def mo3 : List (Str × List Str) := [(("$replace_vars").data, [("ansible.inventories").data])]

/-- Base settings with inventories `[/a]` wrapped in a `MainConfig`. -/
def mc3base : MainConfig := { ansible := { inventories := [pA] } }

/-- Overlay settings with inventories `[/b]` wrapped in a `MainConfig`. -/
def mc3over : MainConfig := { ansible := { inventories := [pB] } }

/-- Base settings with a remote user set. -/
def cfgScalarBase : AnsibleConfig := { user := some (("alice").data) }

/-- Base settings with inventories `[/a]`. -/
def c2base : AnsibleConfig := { inventories := [pA] }

/-- Overlay settings with inventories `[/b]`. -/
def c2over : AnsibleConfig := { inventories := [pB] }

/-- Overlay settings whose inventories list contains `/b` twice. -/
def c2dup : AnsibleConfig := { inventories := [pB, pB] }

/-- A mixed policy marking only `ansible.inventories` for replacement. -/
def rvMix : List Str := [("ansible.inventories").data]

/-- Base settings with both inventories and vars files `[/a]`. -/
def c2mixBase : AnsibleConfig := { inventories := [pA], vars_files := [pA] }

/-- Overlay settings with both inventories and vars files `[/b]`. -/
def c2mixOver : AnsibleConfig := { inventories := [pB], vars_files := [pB] }

/-- Settings exercising every kind of field, with all paths under `/cfg`. -/
def c1good : AnsibleConfig :=
  { config_file := some { absolute := true, parts := [("cfg").data, ("ansible.cfg").data] }
    inventories := [{ absolute := true, parts := [("cfg").data, ("inventory").data] }]
    vault_ids := [
      { label := ("prod").data
        source := pathStr { absolute := true, parts := [("cfg").data, ("pw.txt").data] } },
      { label := ("dev").data, source := ("prompt").data }]
    vars_files := [{ absolute := true, parts := [("cfg").data, ("vars.yml").data] }]
    user := some (("alice").data)
    env_vars := [((("K").data), Prim.pstr (("v").data))] }

/-- Settings holding a single vault identity whose label contains `@`
(and no path-valued field at all). -/
def c1bad : AnsibleConfig :=
  { vault_ids := [{ label := ("a@b").data, source := ("prompt").data }] }

/-- Raw mapping holding the vault-id string `a@/cfg/b@c`. -/
def raw6 : List (FieldKey × RawVal) :=
  [(FieldKey.vault_ids, RawVal.rlist [Prim.pstr (("a@/cfg/b@c").data)])]

/-- The configurator state that loading `raw6` from `/cfg/config.yml`
produces: vault id label `a`, source `/cfg/b@c`. -/
def st6 : Configurator :=
  { config :=
      { ansible := { vault_ids := [{ label := ("a").data, source := ("/cfg/b@c").data }] }
        config_context := some { config_file := cfgFile0 } }
    initial_config_dict := encodeAnsible false dir0
      { vault_ids := [{ label := ("a").data, source := ("/cfg/b@c").data }] } }

/-- A different vault identity with the same serialised form `a@/cfg/b@c`. -/
def vid6 : VaultId := { label := ("a@/cfg/b").data, source := ("c").data }

/-- Replacement settings differing from the defaults in the remote user. -/
def c6new : AnsibleConfig := { user := some (("bob").data) }

/-! ## Basic path lemmas -/

theorem splitSep_ne_nil (sep : Char) (s : Str) : splitSep sep s ≠ [] := by
  cases s with
  | nil => simp [splitSep]
  | cons c rest =>
    simp only [splitSep]
    cases h : splitSep sep rest with
    | nil => simp
    | cons r rs =>
      by_cases hc : c = sep <;> simp [hc]

theorem splitSep_no_sep (sep : Char) (x : Str) (hx : sep ∉ x) :
    splitSep sep x = [x] := by
  induction x with
  | nil => rfl
  | cons c rest ih =>
    have hc : c ≠ sep := fun h => hx (h ▸ List.mem_cons_self c rest)
    have hrest : sep ∉ rest := fun h => hx (List.mem_cons_of_mem c h)
    simp only [splitSep, ih hrest]
    simp [hc]

theorem splitSep_append_sep (sep : Char) (x t : Str) (hx : sep ∉ x) :
    splitSep sep (x ++ sep :: t) = x :: splitSep sep t := by
  induction x with
  | nil =>
    simp only [List.nil_append, splitSep]
    cases h : splitSep sep t with
    | nil => exact absurd h (splitSep_ne_nil sep t)
    | cons r rs => simp
  | cons c rest ih =>
    have hc : c ≠ sep := fun h => hx (h ▸ List.mem_cons_self c rest)
    have hrest : sep ∉ rest := fun h => hx (List.mem_cons_of_mem c h)
    show splitSep sep (c :: (rest ++ sep :: t)) = _
    simp only [splitSep]
    rw [ih hrest]
    simp [hc]

theorem splitSep_joinSep (sep : Char) (comps : List Str)
    (hne : comps ≠ []) (hc : ∀ c ∈ comps, sep ∉ c) :
    splitSep sep (joinSep sep comps) = comps := by
  induction comps with
  | nil => exact absurd rfl hne
  | cons x rest ih =>
    cases rest with
    | nil =>
      simp only [joinSep]
      exact splitSep_no_sep sep x (hc x (List.mem_cons_self x []))
    | cons y ys =>
      simp only [joinSep]
      rw [splitSep_append_sep sep x _ (hc x (List.mem_cons_self x _))]
      rw [ih (by simp) (fun c hcm => hc c (List.mem_cons_of_mem x hcm))]

theorem pathStr_abs (parts : List Str) :
    pathStr { absolute := true, parts := parts } = '/' :: joinSep '/' parts := rfl

theorem pathStr_rel_nil : pathStr { absolute := false, parts := [] } = ['.'] := rfl

theorem pathStr_rel_cons (x : Str) (rest : List Str) :
    pathStr { absolute := false, parts := x :: rest } = joinSep '/' (x :: rest) := rfl

theorem keep_of_good {c : Str} (h1 : c ≠ []) (h2 : c ≠ ['.']) :
    decide (c ≠ [] ∧ c ≠ ['.']) = true := by
  simp [h1, h2]

theorem filter_keep_eq_self {l : List Str} (h : ∀ c ∈ l, c ≠ [] ∧ c ≠ ['.']) :
    l.filter (fun c => decide (c ≠ [] ∧ c ≠ ['.'])) = l := by
  apply List.filter_eq_self.2
  intro c hcm
  exact keep_of_good (h c hcm).1 (h c hcm).2

theorem parsePath_pathStr (p : PyPath) (hwf : PathWF p) :
    parsePath (pathStr p) = p := by
  obtain ⟨abs, parts⟩ := p
  have hgood : ∀ c ∈ parts, c ≠ [] ∧ c ≠ ['.'] :=
    fun c hc => ⟨(hwf c hc).1, (hwf c hc).2.2⟩
  have hsep : ∀ c ∈ parts, '/' ∉ c := fun c hc => (hwf c hc).2.1
  cases abs with
  | true =>
    rw [pathStr_abs]
    cases parts with
    | nil => decide
    | cons x rest =>
      have h1 : splitSep '/' ('/' :: joinSep '/' (x :: rest)) = [] :: (x :: rest) := by
        have h2 := splitSep_append_sep '/' [] (joinSep '/' (x :: rest)) (by simp)
        simp only [List.nil_append] at h2
        rw [h2, splitSep_joinSep '/' (x :: rest) (by simp) hsep]
      simp only [parsePath, h1]
      refine congrArg₂ PyPath.mk (by decide) ?_
      rw [List.filter_cons_of_neg (by decide)]
      exact filter_keep_eq_self hgood
  | false =>
    cases parts with
    | nil => decide
    | cons x rest =>
      rw [pathStr_rel_cons]
      have h1 : splitSep '/' (joinSep '/' (x :: rest)) = x :: rest :=
        splitSep_joinSep '/' (x :: rest) (by simp) hsep
      simp only [parsePath, h1]
      refine congrArg₂ PyPath.mk ?_ (filter_keep_eq_self hgood)
      have hxne : x ≠ [] := (hgood x (by simp)).1
      cases hx : x with
      | nil => exact absurd hx hxne
      | cons c cs =>
        have hcne : c ≠ '/' := by
          intro hcc
          exact hsep x (by simp) (by simp [hx, hcc])
        cases rest with
        | nil => simp [joinSep, hx, hcne]
        | cons y ys => simp [joinSep, hx, hcne]

theorem pathStr_inj (p q : PyPath) (hp : PathWF p) (hq : PathWF q)
    (h : pathStr p = pathStr q) : p = q := by
  have := parsePath_pathStr p hp
  rw [h, parsePath_pathStr q hq] at this
  exact this.symm

theorem expanduser_of_head_ne (home : PyPath) (s : Str)
    (h : ∀ c cs, s = c :: cs → c ≠ '~') : expanduser home s = s := by
  have h1 : s ≠ ['~'] := fun heq => h '~' [] heq rfl
  have h2 : ¬(['~', '/'].isPrefixOf s = true) := by
    intro hpre
    cases s with
    | nil => simp [List.isPrefixOf] at hpre
    | cons c cs =>
      simp [List.isPrefixOf] at hpre
      exact h c cs rfl hpre.1.symm
  simp only [expanduser, if_neg h1, if_neg h2]

theorem expanduser_no_tilde (home : PyPath) (s : Str) (h : s.head? ≠ some '~') :
    expanduser home s = s :=
  expanduser_of_head_ne home s (fun c cs hs hc => h (by rw [hs, hc]; rfl))

theorem pathStr_abs_head (p : PyPath) (h : p.absolute = true) :
    (pathStr p).head? = some '/' := by
  obtain ⟨ab, parts⟩ := p
  cases ab
  · exact absurd h (by simp)
  · rw [pathStr_abs]
    rfl

theorem pathStr_rel_head (c : Char) (cs : Str) (rest : List Str) :
    (pathStr { absolute := false, parts := (c :: cs) :: rest }).head? = some c := by
  cases rest <;> simp [pathStr_rel_cons, joinSep]

theorem relStr_no_tilde (parts : List Str) (hwf : ∀ c ∈ parts, goodComp c)
    (hnt : headNoTilde parts) :
    (pathStr { absolute := false, parts := parts }).head? ≠ some '~' := by
  cases parts with
  | nil =>
    rw [pathStr_rel_nil]
    decide
  | cons x rest =>
    have hxne : x ≠ [] := (hwf x (List.mem_cons_self x rest)).1
    cases hx : x with
    | nil => exact absurd hx hxne
    | cons c cs =>
      subst hx
      rw [pathStr_rel_head]
      exact hnt

theorem pathStr_ne_nil (p : PyPath) (hwf : PathWF p) : pathStr p ≠ [] := by
  obtain ⟨ab, parts⟩ := p
  cases ab
  · cases parts with
    | nil =>
      rw [pathStr_rel_nil]
      simp
    | cons x rest =>
      have hxne : x ≠ [] := (hwf x (List.mem_cons_self x rest)).1
      cases hx : x with
      | nil => exact absurd hx hxne
      | cons c cs =>
        subst hx
        rw [pathStr_rel_cons]
        cases rest <;> simp [joinSep]
  · rw [pathStr_abs]
    simp

theorem relativeTo_pos (p d : PyPath) (h1 : p.absolute = d.absolute)
    (h2 : d.parts <+: p.parts) :
    relativeTo p d = some { absolute := false, parts := (p.parts.drop d.parts.length) } := by
  unfold relativeTo
  rw [if_pos ⟨h1, h2⟩]

theorem joinPath_abs (a b : PyPath) (h : b.absolute = true) : joinPath a b = b := by
  simp [joinPath, h]

theorem joinPath_drop (d p : PyPath) (hd : d.absolute = true) (habs : p.absolute = true)
    (hpre : d.parts <+: p.parts) :
    joinPath d { absolute := false, parts := (p.parts.drop d.parts.length) } = p := by
  obtain ⟨t, ht⟩ := hpre
  have hdrop : p.parts.drop d.parts.length = t := by
    rw [← ht]
    exact List.drop_left d.parts t
  obtain ⟨ab, parts⟩ := p
  simp only at habs hdrop ht
  subst habs
  unfold joinPath
  rw [if_neg (by simp)]
  rw [hdrop, hd, ht]

theorem splitSep_sep_not_mem (sep : Char) (s : Str) :
    ∀ r ∈ splitSep sep s, sep ∉ r := by
  induction s with
  | nil =>
    intro r hr
    simp [splitSep] at hr
    subst hr
    simp
  | cons c0 rest ih =>
    intro r hr
    simp only [splitSep] at hr
    cases hsp : splitSep sep rest with
    | nil => exact absurd hsp (splitSep_ne_nil sep rest)
    | cons r0 rs0 =>
      rw [hsp] at hr
      by_cases hc0 : c0 = sep
      · simp only [if_pos hc0] at hr
        rcases List.mem_cons.mp hr with hr | hr
        · subst hr
          simp
        · exact ih r (hsp ▸ hr)
      · simp only [if_neg hc0] at hr
        rcases List.mem_cons.mp hr with hr | hr
        · subst hr
          intro hmem
          rcases List.mem_cons.mp hmem with hmem | hmem
          · exact hc0 hmem.symm
          · exact ih r0 (hsp ▸ List.mem_cons_self r0 rs0) hmem
        · exact ih r (hsp ▸ List.mem_cons_of_mem r0 hr)

theorem parsePath_goodComp (s : Str) : PathWF (parsePath s) := by
  intro c hc
  unfold parsePath at hc
  simp only at hc
  have h1 := List.mem_of_mem_filter hc
  have h2 := List.of_mem_filter hc
  have h3 := of_decide_eq_true h2
  exact ⟨h3.1, splitSep_sep_not_mem '/' s c h1, h3.2⟩

theorem pathField_roundtrip (home d p : PyPath) (hd : d.absolute = true)
    (h : PathRT d p) :
    pathFieldDeserialize home d (pathFieldSerialize true d p) = p := by
  obtain ⟨hwf, habs, hpre, hnt⟩ := h
  have hwfr : ∀ c ∈ p.parts.drop d.parts.length, goodComp c :=
    fun c hc => hwf c (List.drop_subset _ _ hc)
  have hser : pathFieldSerialize true d p
      = pathStr { absolute := false, parts := (p.parts.drop d.parts.length) } := by
    unfold pathFieldSerialize
    rw [if_pos rfl, relativeTo_pos p d (by rw [habs, hd]) hpre]
  rw [hser]
  unfold pathFieldDeserialize
  rw [expanduser_no_tilde home _ (relStr_no_tilde _ hwfr hnt)]
  rw [parsePath_pathStr { absolute := false, parts := (p.parts.drop d.parts.length) } hwfr]
  exact joinPath_drop d p hd habs hpre

theorem pathFieldSerialize_absMode (d p : PyPath) :
    pathFieldSerialize false d p = pathStr p := rfl

theorem decode_pathStr_abs (home d p : PyPath) (hwf : PathWF p) (habs : p.absolute = true) :
    pathFieldDeserialize home d (pathStr p) = p := by
  unfold pathFieldDeserialize
  rw [expanduser_no_tilde home _ (by rw [pathStr_abs_head p habs]; decide)]
  rw [parsePath_pathStr p hwf]
  exact joinPath_abs d p habs

/-! ## VaultId field lemmas -/

theorem splitFirst_append (sep : Char) (a b : Str) (ha : sep ∉ a) :
    splitFirst sep (a ++ sep :: b) = some (a, b) := by
  induction a with
  | nil => simp [splitFirst]
  | cons c cs ih =>
    have hc : c ≠ sep := fun h => ha (h ▸ List.mem_cons_self c cs)
    have hcs : sep ∉ cs := fun h => ha (List.mem_cons_of_mem c h)
    simp [splitFirst, hc, ih hcs]

theorem vaultIdOfString_split (fs : Fs) (label src : Str) (hlab : '@' ∉ label) :
    vaultIdOfString fs (label ++ '@' :: src)
      = { label := label
          source := if src ≠ [] ∧ src ≠ ("prompt").data then
              auto_realpath fs src none true
            else src } := by
  unfold vaultIdOfString
  rw [splitFirst_append '@' label src hlab]

theorem auto_realpath_inert (fs : Fs) (s : Str) (h : fs.pathExists s = false) :
    auto_realpath fs s none true = s := by
  unfold auto_realpath
  simp [h]

theorem vaultIdFieldDeserialize_nonpath (fs : Fs) (home d : PyPath) (label src : Str)
    (hlab : '@' ∉ label) (h : src = [] ∨ src = ("prompt").data) :
    vaultIdFieldDeserialize fs home d (label ++ '@' :: src)
      = { label := label, source := src } := by
  have hcond : ¬(src ≠ [] ∧ src ≠ ("prompt").data) := by
    rcases h with h | h <;> simp [h]
  unfold vaultIdFieldDeserialize
  rw [vaultIdOfString_split fs label src hlab]
  simp only [if_neg hcond]

theorem vaultIdFieldDeserialize_path (fs : Fs) (home d : PyPath) (label src : Str)
    (hlab : '@' ∉ label) (hne : src ≠ []) (hnp : src ≠ ("prompt").data)
    (hex : fs.pathExists src = false) :
    vaultIdFieldDeserialize fs home d (label ++ '@' :: src)
      = { label := label
          source := pathStr (joinPath d
            (parsePath (expanduser home (pathStr (parsePath src))))) } := by
  have hcond : src ≠ [] ∧ src ≠ ("prompt").data := ⟨hne, hnp⟩
  unfold vaultIdFieldDeserialize
  rw [vaultIdOfString_split fs label src hlab]
  simp only [if_pos hcond]
  rw [auto_realpath_inert fs src hex]
  simp only [if_pos hcond]

theorem vaultIdFieldSerialize_path (d : PyPath) (v : VaultId) (hne : v.source ≠ [])
    (hnp : v.source ≠ ("prompt").data)
    (habs : (parsePath v.source).absolute = d.absolute)
    (hpre : d.parts <+: (parsePath v.source).parts) :
    vaultIdFieldSerialize true d v
      = v.label ++ '@' :: pathStr { absolute := false, parts := ((parsePath v.source).parts.drop d.parts.length) } := by
  unfold vaultIdFieldSerialize
  rw [if_pos rfl, if_pos ⟨hne, hnp⟩, relativeTo_pos _ d habs hpre]
  rfl

theorem vaultIdFieldSerialize_nonpath (d : PyPath) (v : VaultId)
    (h : v.source = [] ∨ v.source = ("prompt").data) :
    vaultIdFieldSerialize true d v = vaultIdStr v := by
  have hcond : ¬(v.source ≠ [] ∧ v.source ≠ ("prompt").data) := by
    rcases h with h | h <;> simp [h]
  unfold vaultIdFieldSerialize
  rw [if_pos rfl, if_neg hcond]

theorem vaultId_roundtrip (fs : Fs) (home d : PyPath) (v : VaultId)
    (hd : d.absolute = true) (h : VaultIdRT fs d v) :
    vaultIdFieldDeserialize fs home d (vaultIdFieldSerialize true d v) = v := by
  obtain ⟨hlab, hsrc⟩ := h
  rcases hsrc with hs | hs | ⟨hcanon, hrt, hnp, hex⟩
  · rw [vaultIdFieldSerialize_nonpath d v (Or.inl hs)]
    rw [show vaultIdStr v = v.label ++ '@' :: v.source from rfl, hs]
    rw [vaultIdFieldDeserialize_nonpath fs home d v.label [] hlab (Or.inl rfl)]
    rw [← hs]
  · rw [vaultIdFieldSerialize_nonpath d v (Or.inr hs)]
    rw [show vaultIdStr v = v.label ++ '@' :: v.source from rfl, hs]
    rw [vaultIdFieldDeserialize_nonpath fs home d v.label _ hlab (Or.inr rfl)]
    rw [← hs]
  · obtain ⟨hwfsp, habs, hpre, hnt⟩ := hrt
    have hwfr : ∀ c ∈ (parsePath v.source).parts.drop d.parts.length, goodComp c :=
      fun c hc => hwfsp c (List.drop_subset _ _ hc)
    have hsne : v.source ≠ [] := by
      intro h0
      have hh := pathStr_abs_head (parsePath v.source) habs
      rw [← hcanon, h0] at hh
      simp at hh
    have hnps : v.source ≠ ("prompt").data := by
      intro h0
      have hh := pathStr_abs_head (parsePath v.source) habs
      rw [← hcanon, h0] at hh
      exact absurd hh (by decide)
    rw [vaultIdFieldSerialize_path d v hsne hnps (by rw [habs, hd]) hpre]
    have hrsne : pathStr { absolute := false, parts := ((parsePath v.source).parts.drop d.parts.length) } ≠ [] :=
      pathStr_ne_nil _ hwfr
    rw [vaultIdFieldDeserialize_path fs home d v.label _ hlab hrsne hnp hex]
    rw [parsePath_pathStr { absolute := false, parts := ((parsePath v.source).parts.drop d.parts.length) } hwfr]
    rw [expanduser_no_tilde home _ (relStr_no_tilde _ hwfr hnt)]
    rw [parsePath_pathStr { absolute := false, parts := ((parsePath v.source).parts.drop d.parts.length) } hwfr]
    rw [joinPath_drop d (parsePath v.source) hd habs hpre]
    rw [← hcanon]

theorem vaultIdAbs_roundtrip (fs : Fs) (home d : PyPath) (v : VaultId)
    (h : VaultIdAbsRT fs v) :
    vaultIdFieldDeserialize fs home d (vaultIdStr v) = v := by
  obtain ⟨hlab, hsrc⟩ := h
  rcases hsrc with hs | hs | ⟨hcanon, habs, hex⟩
  · rw [show vaultIdStr v = v.label ++ '@' :: v.source from rfl, hs]
    rw [vaultIdFieldDeserialize_nonpath fs home d v.label [] hlab (Or.inl rfl)]
    rw [← hs]
  · rw [show vaultIdStr v = v.label ++ '@' :: v.source from rfl, hs]
    rw [vaultIdFieldDeserialize_nonpath fs home d v.label _ hlab (Or.inr rfl)]
    rw [← hs]
  · have hh : v.source.head? = some '/' := by
      rw [hcanon]
      exact pathStr_abs_head (parsePath v.source) habs
    have hne : v.source ≠ [] := by
      intro h0
      rw [h0] at hh
      simp at hh
    have hnp : v.source ≠ ("prompt").data := by
      intro h0
      rw [h0] at hh
      exact absurd hh (by decide)
    rw [show vaultIdStr v = v.label ++ '@' :: v.source from rfl]
    rw [vaultIdFieldDeserialize_path fs home d v.label v.source hlab hne hnp hex]
    rw [← hcanon]
    rw [expanduser_no_tilde home v.source (by rw [hh]; decide)]
    rw [joinPath_abs d (parsePath v.source) habs]
    rw [← hcanon]

/-! ## Schema lookup lemmas -/

theorem lookupKey_eq_none (k : FieldKey) (l : List (FieldKey × RawVal))
    (h : ∀ kv ∈ l, kv.1 ≠ k) : lookupKey k l = none := by
  induction l with
  | nil => rfl
  | cons kv rest ih =>
    unfold lookupKey
    rw [if_neg (h kv (List.mem_cons_self kv rest))]
    exact ih (fun kv2 h2 => h kv2 (List.mem_cons_of_mem kv h2))

theorem lookupKey_cons (k : FieldKey) (kv : FieldKey × RawVal)
    (rest : List (FieldKey × RawVal)) :
    lookupKey k (kv :: rest) = if kv.1 = k then some kv.2 else lookupKey k rest := rfl

theorem lookupKey_removeNone (k : FieldKey) (l : List (FieldKey × RawVal))
    (hnd : (l.map Prod.fst).Nodup) :
    lookupKey k (removeNoneValues l)
      = match lookupKey k l with
        | some v => if isNullVal v then none else some v
        | none => none := by
  induction l with
  | nil => rfl
  | cons kv rest ih =>
    rw [List.map_cons] at hnd
    have hkeys := (List.nodup_cons.mp hnd).1
    have hnd2 := (List.nodup_cons.mp hnd).2
    by_cases hk : kv.1 = k
    · by_cases hnull : isNullVal kv.2 = true
      · have hrm : removeNoneValues (kv :: rest) = removeNoneValues rest := by
          unfold removeNoneValues
          rw [List.filter_cons_of_neg (by simp [hnull])]
        have hlk : lookupKey k (kv :: rest) = some kv.2 := by
          rw [lookupKey_cons, if_pos hk]
        rw [hrm, hlk]
        show lookupKey k (removeNoneValues rest) = if isNullVal kv.2 then none else some kv.2
        rw [if_pos hnull]
        apply lookupKey_eq_none
        intro kv2 h2 heq
        exact hkeys (by
          rw [hk, ← heq]
          exact List.mem_map_of_mem Prod.fst (List.mem_of_mem_filter h2))
      · have hnf : isNullVal kv.2 = false := by simpa using hnull
        have hrm : removeNoneValues (kv :: rest) = kv :: removeNoneValues rest := by
          unfold removeNoneValues
          rw [List.filter_cons_of_pos (by simp [hnf])]
        have hlk1 : lookupKey k (kv :: removeNoneValues rest) = some kv.2 := by
          rw [lookupKey_cons, if_pos hk]
        have hlk2 : lookupKey k (kv :: rest) = some kv.2 := by
          rw [lookupKey_cons, if_pos hk]
        rw [hrm, hlk1, hlk2]
        show some kv.2 = if isNullVal kv.2 then none else some kv.2
        rw [if_neg (by simp [hnf])]
    · have hlk2 : lookupKey k (kv :: rest) = lookupKey k rest := by
        rw [lookupKey_cons, if_neg hk]
      by_cases hnull : isNullVal kv.2 = true
      · have hrm : removeNoneValues (kv :: rest) = removeNoneValues rest := by
          unfold removeNoneValues
          rw [List.filter_cons_of_neg (by simp [hnull])]
        rw [hrm, hlk2]
        exact ih hnd2
      · have hnf : isNullVal kv.2 = false := by simpa using hnull
        have hrm : removeNoneValues (kv :: rest) = kv :: removeNoneValues rest := by
          unfold removeNoneValues
          rw [List.filter_cons_of_pos (by simp [hnf])]
        have hlk1 : lookupKey k (kv :: removeNoneValues rest)
            = lookupKey k (removeNoneValues rest) := by
          rw [lookupKey_cons, if_neg hk]
        rw [hrm, hlk1, hlk2]
        exact ih hnd2

theorem encodeFields_keys_nodup (m : Bool) (d : PyPath) (c : AnsibleConfig) :
    ((encodeFields m d c).map Prod.fst).Nodup := by
  show ([FieldKey.config_file, .inventories, .vault_ids, .vault_password_files,
    .user_scripts, .vars_files, .vault_files, .private_key_file, .user,
    .vault_encrypt_identity, .log_path, .env_vars] : List FieldKey).Nodup
  decide

theorem lookup_enc_config_file (m : Bool) (d : PyPath) (c : AnsibleConfig) :
    lookupKey .config_file (encodeAnsible m d c)
      = c.config_file.map (fun p => RawVal.prim (Prim.pstr (pathFieldSerialize m d p))) := by
  unfold encodeAnsible
  rw [lookupKey_removeNone _ _ (encodeFields_keys_nodup m d c)]
  rw [show lookupKey FieldKey.config_file (encodeFields m d c)
        = some (optPathRaw m d c.config_file) from rfl]
  cases c.config_file <;> simp [optPathRaw, isNullVal]

theorem lookup_enc_inventories (m : Bool) (d : PyPath) (c : AnsibleConfig) :
    lookupKey .inventories (encodeAnsible m d c)
      = some (RawVal.rlist (c.inventories.map (fun p => Prim.pstr (pathFieldSerialize m d p)))) := by
  unfold encodeAnsible
  rw [lookupKey_removeNone _ _ (encodeFields_keys_nodup m d c)]
  rw [show lookupKey FieldKey.inventories (encodeFields m d c)
        = some (RawVal.rlist (c.inventories.map (fun p => Prim.pstr (pathFieldSerialize m d p)))) from rfl]
  simp [isNullVal]

theorem lookup_enc_vault_ids (m : Bool) (d : PyPath) (c : AnsibleConfig) :
    lookupKey .vault_ids (encodeAnsible m d c)
      = some (RawVal.rlist (c.vault_ids.map (fun v => Prim.pstr (vaultIdFieldSerialize m d v)))) := by
  unfold encodeAnsible
  rw [lookupKey_removeNone _ _ (encodeFields_keys_nodup m d c)]
  rw [show lookupKey FieldKey.vault_ids (encodeFields m d c)
        = some (RawVal.rlist (c.vault_ids.map (fun v => Prim.pstr (vaultIdFieldSerialize m d v)))) from rfl]
  simp [isNullVal]

theorem lookup_enc_vault_password_files (m : Bool) (d : PyPath) (c : AnsibleConfig) :
    lookupKey .vault_password_files (encodeAnsible m d c)
      = some (RawVal.rlist (c.vault_password_files.map (fun p => Prim.pstr (pathFieldSerialize m d p)))) := by
  unfold encodeAnsible
  rw [lookupKey_removeNone _ _ (encodeFields_keys_nodup m d c)]
  rw [show lookupKey FieldKey.vault_password_files (encodeFields m d c)
        = some (RawVal.rlist (c.vault_password_files.map (fun p => Prim.pstr (pathFieldSerialize m d p)))) from rfl]
  simp [isNullVal]

theorem lookup_enc_user_scripts (m : Bool) (d : PyPath) (c : AnsibleConfig) :
    lookupKey .user_scripts (encodeAnsible m d c)
      = some (RawVal.rlist (c.user_scripts.map (fun p => Prim.pstr (pathFieldSerialize m d p)))) := by
  unfold encodeAnsible
  rw [lookupKey_removeNone _ _ (encodeFields_keys_nodup m d c)]
  rw [show lookupKey FieldKey.user_scripts (encodeFields m d c)
        = some (RawVal.rlist (c.user_scripts.map (fun p => Prim.pstr (pathFieldSerialize m d p)))) from rfl]
  simp [isNullVal]

theorem lookup_enc_vars_files (m : Bool) (d : PyPath) (c : AnsibleConfig) :
    lookupKey .vars_files (encodeAnsible m d c)
      = some (RawVal.rlist (c.vars_files.map (fun p => Prim.pstr (pathFieldSerialize m d p)))) := by
  unfold encodeAnsible
  rw [lookupKey_removeNone _ _ (encodeFields_keys_nodup m d c)]
  rw [show lookupKey FieldKey.vars_files (encodeFields m d c)
        = some (RawVal.rlist (c.vars_files.map (fun p => Prim.pstr (pathFieldSerialize m d p)))) from rfl]
  simp [isNullVal]

theorem lookup_enc_vault_files (m : Bool) (d : PyPath) (c : AnsibleConfig) :
    lookupKey .vault_files (encodeAnsible m d c)
      = some (RawVal.rlist (c.vault_files.map (fun p => Prim.pstr (pathFieldSerialize m d p)))) := by
  unfold encodeAnsible
  rw [lookupKey_removeNone _ _ (encodeFields_keys_nodup m d c)]
  rw [show lookupKey FieldKey.vault_files (encodeFields m d c)
        = some (RawVal.rlist (c.vault_files.map (fun p => Prim.pstr (pathFieldSerialize m d p)))) from rfl]
  simp [isNullVal]

theorem lookup_enc_private_key_file (m : Bool) (d : PyPath) (c : AnsibleConfig) :
    lookupKey .private_key_file (encodeAnsible m d c)
      = c.private_key_file.map (fun p => RawVal.prim (Prim.pstr (pathFieldSerialize m d p))) := by
  unfold encodeAnsible
  rw [lookupKey_removeNone _ _ (encodeFields_keys_nodup m d c)]
  rw [show lookupKey FieldKey.private_key_file (encodeFields m d c)
        = some (optPathRaw m d c.private_key_file) from rfl]
  cases c.private_key_file <;> simp [optPathRaw, isNullVal]

theorem lookup_enc_user (m : Bool) (d : PyPath) (c : AnsibleConfig) :
    lookupKey .user (encodeAnsible m d c)
      = c.user.map (fun s => RawVal.prim (Prim.pstr s)) := by
  unfold encodeAnsible
  rw [lookupKey_removeNone _ _ (encodeFields_keys_nodup m d c)]
  rw [show lookupKey FieldKey.user (encodeFields m d c) = some (optStrRaw c.user) from rfl]
  cases c.user <;> simp [optStrRaw, isNullVal]

theorem lookup_enc_vault_encrypt_identity (m : Bool) (d : PyPath) (c : AnsibleConfig) :
    lookupKey .vault_encrypt_identity (encodeAnsible m d c)
      = c.vault_encrypt_identity.map (fun s => RawVal.prim (Prim.pstr s)) := by
  unfold encodeAnsible
  rw [lookupKey_removeNone _ _ (encodeFields_keys_nodup m d c)]
  rw [show lookupKey FieldKey.vault_encrypt_identity (encodeFields m d c)
        = some (optStrRaw c.vault_encrypt_identity) from rfl]
  cases c.vault_encrypt_identity <;> simp [optStrRaw, isNullVal]

theorem lookup_enc_log_path (m : Bool) (d : PyPath) (c : AnsibleConfig) :
    lookupKey .log_path (encodeAnsible m d c)
      = c.log_path.map (fun p => RawVal.prim (Prim.pstr (pathFieldSerialize m d p))) := by
  unfold encodeAnsible
  rw [lookupKey_removeNone _ _ (encodeFields_keys_nodup m d c)]
  rw [show lookupKey FieldKey.log_path (encodeFields m d c)
        = some (optPathRaw m d c.log_path) from rfl]
  cases c.log_path <;> simp [optPathRaw, isNullVal]

theorem lookup_enc_env_vars (m : Bool) (d : PyPath) (c : AnsibleConfig) :
    lookupKey .env_vars (encodeAnsible m d c)
      = some (RawVal.rmap (c.env_vars.map (fun kv => (kv.1, Prim.pstr (pyStr kv.2))))) := by
  unfold encodeAnsible
  rw [lookupKey_removeNone _ _ (encodeFields_keys_nodup m d c)]
  rw [show lookupKey FieldKey.env_vars (encodeFields m d c)
        = some (RawVal.rmap (c.env_vars.map (fun kv => (kv.1, Prim.pstr (pyStr kv.2))))) from rfl]
  simp [isNullVal]

/-! ## Decoder component lemmas -/

theorem ok_bind {α β : Type} (a : α) (f : α → Except Unit β) :
    (Except.ok a >>= f) = f a := rfl

theorem map_eq_self_of {α : Type} (l : List α) (f : α → α) (h : ∀ a ∈ l, f a = a) :
    l.map f = l := by
  induction l with
  | nil => rfl
  | cons a rest ih =>
    rw [List.map_cons, h a (List.mem_cons_self a rest),
        ih (fun a2 ha => h a2 (List.mem_cons_of_mem _ ha))]

theorem decodeOptPath_ok (home d : PyPath) (o : Option PyPath) (g : PyPath → Str)
    (h : ∀ p, o = some p → pathFieldDeserialize home d (g p) = p) :
    decodeOptPath home d (o.map (fun p => RawVal.prim (Prim.pstr (g p)))) = .ok o := by
  cases o with
  | none => rfl
  | some p =>
    show decodeOptPath home d (some (RawVal.prim (Prim.pstr (g p)))) = Except.ok (some p)
    simp only [decodeOptPath, h p rfl]

theorem decodeOptStr_ok (o : Option Str) :
    decodeOptStr (o.map (fun s => RawVal.prim (Prim.pstr s))) = .ok o := by
  cases o <;> rfl

theorem primStrs_map_pstr (l : List Str) : primStrs (l.map Prim.pstr) = .ok l := by
  induction l with
  | nil => rfl
  | cons s rest ih => simp [primStrs, ih, Except.map]

theorem decodePathList_ok (home d : PyPath) (l : List PyPath) (g : PyPath → Str)
    (h : ∀ p ∈ l, pathFieldDeserialize home d (g p) = p) :
    decodePathList home d (some (RawVal.rlist (l.map (fun p => Prim.pstr (g p)))))
      = .ok l := by
  have hmm : l.map (fun p => Prim.pstr (g p)) = (l.map g).map Prim.pstr := by
    rw [List.map_map]
    rfl
  simp only [decodePathList, hmm, primStrs_map_pstr, Except.map]
  rw [List.map_map]
  rw [map_eq_self_of l (pathFieldDeserialize home d ∘ g) (fun p hp => h p hp)]

theorem decodeVaultIdList_ok (fs : Fs) (home d : PyPath) (l : List VaultId)
    (g : VaultId → Str)
    (h : ∀ v ∈ l, vaultIdFieldDeserialize fs home d (g v) = v) :
    decodeVaultIdList fs home d (some (RawVal.rlist (l.map (fun v => Prim.pstr (g v)))))
      = .ok l := by
  have hmm : l.map (fun v => Prim.pstr (g v)) = (l.map g).map Prim.pstr := by
    rw [List.map_map]
    rfl
  simp only [decodeVaultIdList, hmm, primStrs_map_pstr, Except.map]
  rw [List.map_map]
  rw [map_eq_self_of l (vaultIdFieldDeserialize fs home d ∘ g) (fun v hv => h v hv)]

theorem envPairs_map_ok (l : List (Str × Prim))
    (h : ∀ kv ∈ l, kv.2 = Prim.pstr (pyStr kv.2)) :
    envPairs (l.map (fun kv => (kv.1, Prim.pstr (pyStr kv.2)))) = .ok l := by
  induction l with
  | nil => rfl
  | cons kv rest ih =>
    obtain ⟨k, v⟩ := kv
    simp only [List.map_cons, envPairs]
    rw [ih (fun kv2 h2 => h kv2 (List.mem_cons_of_mem _ h2))]
    have hv := h (k, v) (List.mem_cons_self _ _)
    simp only at hv
    simp [Except.map]
    exact hv.symm

theorem decodeEnvVars_ok (l : List (Str × Prim))
    (h : ∀ kv ∈ l, kv.2 = Prim.pstr (pyStr kv.2)) :
    decodeEnvVars (some (RawVal.rmap (l.map (fun kv => (kv.1, Prim.pstr (pyStr kv.2))))))
      = .ok l := by
  unfold decodeEnvVars
  exact envPairs_map_ok l h

/-! ## Claim C1 -/

/-- C1 (amended): decoding the encoding of settings `s` under context
`ctx` returns `s` provided: every stored path is well-formed, absolute and
under `ctx.configDir` with a relative form not starting with `~`; every
vault-identity label is free of `@`; every path-valued vault source is the
canonical string of such a path, its relative form is neither the literal
`prompt` nor the name of a file existing in the current filesystem (which
`auto_realpath` would canonicalise); and every env value is a string. -/
theorem c1_roundtrip_amended (fs : Fs) (home d : PyPath) (c : AnsibleConfig)
    (hd : d.absolute = true) (h : SettingsRT fs d c) :
    decodeAnsible fs home d (encodeAnsible true d c) = Except.ok c := by
  obtain ⟨h1, h2, h3, h4, h5, h6, h7, h8, h9, h10⟩ := h
  unfold decodeAnsible
  simp only [lookup_enc_config_file, lookup_enc_inventories, lookup_enc_vault_ids,
    lookup_enc_vault_password_files, lookup_enc_user_scripts, lookup_enc_vars_files,
    lookup_enc_vault_files, lookup_enc_private_key_file, lookup_enc_user,
    lookup_enc_vault_encrypt_identity, lookup_enc_log_path, lookup_enc_env_vars]
  simp only [
    decodeOptPath_ok home d c.config_file (fun p => pathFieldSerialize true d p)
      (fun p hp => pathField_roundtrip home d p hd (by rw [hp] at h1; exact h1)),
    decodePathList_ok home d c.inventories (fun p => pathFieldSerialize true d p)
      (fun p hp => pathField_roundtrip home d p hd (h2 p hp)),
    decodeVaultIdList_ok fs home d c.vault_ids (fun v => vaultIdFieldSerialize true d v)
      (fun v hv => vaultId_roundtrip fs home d v hd (h3 v hv)),
    decodePathList_ok home d c.vault_password_files (fun p => pathFieldSerialize true d p)
      (fun p hp => pathField_roundtrip home d p hd (h4 p hp)),
    decodePathList_ok home d c.user_scripts (fun p => pathFieldSerialize true d p)
      (fun p hp => pathField_roundtrip home d p hd (h5 p hp)),
    decodePathList_ok home d c.vars_files (fun p => pathFieldSerialize true d p)
      (fun p hp => pathField_roundtrip home d p hd (h6 p hp)),
    decodePathList_ok home d c.vault_files (fun p => pathFieldSerialize true d p)
      (fun p hp => pathField_roundtrip home d p hd (h7 p hp)),
    decodeOptPath_ok home d c.private_key_file (fun p => pathFieldSerialize true d p)
      (fun p hp => pathField_roundtrip home d p hd (by rw [hp] at h8; exact h8)),
    decodeOptStr_ok c.user, decodeOptStr_ok c.vault_encrypt_identity,
    decodeOptPath_ok home d c.log_path (fun p => pathFieldSerialize true d p)
      (fun p hp => pathField_roundtrip home d p hd (by rw [hp] at h9; exact h9)),
    decodeEnvVars_ok c.env_vars h10,
    ok_bind]
  rfl

/-- C1 witness: the round trip instantiated at settings exercising every
field kind, all under `/cfg`. -/
theorem c1_roundtrip_amended_witness :
    decodeAnsible fs0 home0 dir0 (encodeAnsible true dir0 c1good) = Except.ok c1good :=
  c1_roundtrip_amended fs0 home0 dir0 c1good (by decide) (by decide)

/-- C1 counterexample: settings whose only value is a vault identity with
label `a@b` and source `prompt` — every path stored lies (vacuously) under
the config dir, yet decode(encode(s)) splits the serialised id `a@b@prompt`
at the first `@` and does not return `s`. -/
theorem c1_counterexample :
    c1bad.config_file = none ∧ c1bad.inventories = [] ∧
    c1bad.vault_password_files = [] ∧ c1bad.user_scripts = [] ∧
    c1bad.vars_files = [] ∧ c1bad.vault_files = [] ∧
    c1bad.private_key_file = none ∧ c1bad.log_path = none ∧
    (∀ v ∈ c1bad.vault_ids, v.source = ("prompt").data) ∧
    decodeAnsible fs0 home0 dir0 (encodeAnsible true dir0 c1bad) ≠ Except.ok c1bad := by
  decide

/-! ## Absolute-mode roundtrip and change detection -/

theorem vaultIdFieldSerialize_absMode (d : PyPath) (v : VaultId) :
    vaultIdFieldSerialize false d v = vaultIdStr v := rfl

theorem absSettings_roundtrip (fs : Fs) (home d d2 : PyPath) (c : AnsibleConfig)
    (h : GoodSettings fs c) :
    decodeAnsible fs home d (encodeAnsible false d2 c) = Except.ok c := by
  obtain ⟨h1, h2, h3, h4, h5, h6, h7, h8, h9, h10⟩ := h
  unfold decodeAnsible
  simp only [lookup_enc_config_file, lookup_enc_inventories, lookup_enc_vault_ids,
    lookup_enc_vault_password_files, lookup_enc_user_scripts, lookup_enc_vars_files,
    lookup_enc_vault_files, lookup_enc_private_key_file, lookup_enc_user,
    lookup_enc_vault_encrypt_identity, lookup_enc_log_path, lookup_enc_env_vars]
  simp only [
    decodeOptPath_ok home d c.config_file (fun p => pathFieldSerialize false d2 p)
      (fun p hp => by
        rw [hp] at h1
        exact decode_pathStr_abs home d p h1.1 h1.2),
    decodePathList_ok home d c.inventories (fun p => pathFieldSerialize false d2 p)
      (fun p hp => by
        exact decode_pathStr_abs home d p (h2 p hp).1 (h2 p hp).2),
    decodeVaultIdList_ok fs home d c.vault_ids (fun v => vaultIdFieldSerialize false d2 v)
      (fun v hv => by
        exact vaultIdAbs_roundtrip fs home d v (h3 v hv)),
    decodePathList_ok home d c.vault_password_files (fun p => pathFieldSerialize false d2 p)
      (fun p hp => by
        exact decode_pathStr_abs home d p (h4 p hp).1 (h4 p hp).2),
    decodePathList_ok home d c.user_scripts (fun p => pathFieldSerialize false d2 p)
      (fun p hp => by
        exact decode_pathStr_abs home d p (h5 p hp).1 (h5 p hp).2),
    decodePathList_ok home d c.vars_files (fun p => pathFieldSerialize false d2 p)
      (fun p hp => by
        exact decode_pathStr_abs home d p (h6 p hp).1 (h6 p hp).2),
    decodePathList_ok home d c.vault_files (fun p => pathFieldSerialize false d2 p)
      (fun p hp => by
        exact decode_pathStr_abs home d p (h7 p hp).1 (h7 p hp).2),
    decodeOptPath_ok home d c.private_key_file (fun p => pathFieldSerialize false d2 p)
      (fun p hp => by
        rw [hp] at h8
        exact decode_pathStr_abs home d p h8.1 h8.2),
    decodeOptStr_ok c.user, decodeOptStr_ok c.vault_encrypt_identity,
    decodeOptPath_ok home d c.log_path (fun p => pathFieldSerialize false d2 p)
      (fun p hp => by
        rw [hp] at h9
        exact decode_pathStr_abs home d p h9.1 h9.2),
    decodeEnvVars_ok c.env_vars h10,
    ok_bind]
  rfl

theorem encodeAnsible_abs_inj (d d2 : PyPath) (a c2 : AnsibleConfig)
    (hgood : GoodSettings fs0 a) (hgood2 : GoodSettings fs0 c2)
    (heq : encodeAnsible false d2 c2 = encodeAnsible false d a) : c2 = a := by
  have e1 := absSettings_roundtrip fs0 home0 d d2 c2 hgood2
  rw [heq] at e1
  rw [absSettings_roundtrip fs0 home0 d d a hgood] at e1
  exact (Except.ok.inj e1).symm

/-! ## Merge lemmas -/

theorem mergeField_spec {α : Type} [DecidableEq α] (rv : List Str) (name : Str)
    (b o : List α) (h : name ∉ rv) :
    listMergeAttr rv name b o = b ++ o.filter (fun x => decide (x ∉ b)) ∧
    (o.Nodup → ∀ x ∈ o, x ∉ b → (listMergeAttr rv name b o).count x = 1) := by
  have heq : listMergeAttr rv name b o = b ++ o.filter (fun x => decide (x ∉ b)) := by
    simp [listMergeAttr, h]
  refine ⟨heq, ?_⟩
  intro hnd x hxo hxb
  rw [heq, List.count_append, List.count_eq_zero.mpr hxb]
  simp only [Nat.zero_add]
  exact List.count_eq_one_of_mem (hnd.filter _)
    (List.mem_filter.2 ⟨hxo, by simpa using hxb⟩)

/-! ## Claim C2 -/

/-- C2 (amended): for every list field taken individually, whenever that
field's dotted name is not marked for replacement the merged list is the
base list followed by exactly the overlay elements not already present in
the base (in overlay order); each such appended element appears exactly
once in the result provided the overlay list itself contains no
duplicates.  The hypotheses are per field, so the statement covers every
unmarked field under a mixed policy. -/
theorem c2_merge_append_unique (rv : List Str) (b o : AnsibleConfig) :
    (("ansible.inventories").data ∉ rv →
      (ansibleMerge rv b o).inventories
          = b.inventories ++ o.inventories.filter (fun x => decide (x ∉ b.inventories)) ∧
      (o.inventories.Nodup → ∀ x ∈ o.inventories, x ∉ b.inventories →
        (ansibleMerge rv b o).inventories.count x = 1)) ∧
    (("ansible.vault_ids").data ∉ rv →
      (ansibleMerge rv b o).vault_ids
          = b.vault_ids ++ o.vault_ids.filter (fun x => decide (x ∉ b.vault_ids)) ∧
      (o.vault_ids.Nodup → ∀ x ∈ o.vault_ids, x ∉ b.vault_ids →
        (ansibleMerge rv b o).vault_ids.count x = 1)) ∧
    (("ansible.vault_password_files").data ∉ rv →
      (ansibleMerge rv b o).vault_password_files
          = b.vault_password_files
            ++ o.vault_password_files.filter (fun x => decide (x ∉ b.vault_password_files)) ∧
      (o.vault_password_files.Nodup →
        ∀ x ∈ o.vault_password_files, x ∉ b.vault_password_files →
          (ansibleMerge rv b o).vault_password_files.count x = 1)) ∧
    (("ansible.user_scripts").data ∉ rv →
      (ansibleMerge rv b o).user_scripts
          = b.user_scripts ++ o.user_scripts.filter (fun x => decide (x ∉ b.user_scripts)) ∧
      (o.user_scripts.Nodup → ∀ x ∈ o.user_scripts, x ∉ b.user_scripts →
        (ansibleMerge rv b o).user_scripts.count x = 1)) ∧
    (("ansible.vars_files").data ∉ rv →
      (ansibleMerge rv b o).vars_files
          = b.vars_files ++ o.vars_files.filter (fun x => decide (x ∉ b.vars_files)) ∧
      (o.vars_files.Nodup → ∀ x ∈ o.vars_files, x ∉ b.vars_files →
        (ansibleMerge rv b o).vars_files.count x = 1)) ∧
    (("ansible.vault_files").data ∉ rv →
      (ansibleMerge rv b o).vault_files
          = b.vault_files ++ o.vault_files.filter (fun x => decide (x ∉ b.vault_files)) ∧
      (o.vault_files.Nodup → ∀ x ∈ o.vault_files, x ∉ b.vault_files →
        (ansibleMerge rv b o).vault_files.count x = 1)) :=
  ⟨fun h => mergeField_spec rv _ b.inventories o.inventories h,
   fun h => mergeField_spec rv _ b.vault_ids o.vault_ids h,
   fun h => mergeField_spec rv _ b.vault_password_files o.vault_password_files h,
   fun h => mergeField_spec rv _ b.user_scripts o.user_scripts h,
   fun h => mergeField_spec rv _ b.vars_files o.vars_files h,
   fun h => mergeField_spec rv _ b.vault_files o.vault_files h⟩

/-- C2 witness under a mixed policy (`$replace_vars = ["ansible.inventories"]`):
the unmarked `vars_files` field appends `/b` exactly once. -/
theorem c2_merge_append_unique_witness :
    (ansibleMerge rvMix c2mixBase c2mixOver).vars_files.count pB = 1 :=
  ((c2_merge_append_unique rvMix c2mixBase c2mixOver).2.2.2.2.1
    (by decide)).2 (by decide) pB (by decide) (by decide)

/-- C2 counterexample: an overlay whose inventories list holds `/b` twice
(`/b` absent from the base, policy empty) merges to a list in which the
appended element `/b` appears twice, not exactly once. -/
theorem c2_counterexample :
    pB ∈ c2dup.inventories ∧ pB ∉ ({} : AnsibleConfig).inventories ∧
    ("ansible.inventories").data ∉ ([] : List Str) ∧
    (ansibleMerge [] {} c2dup).inventories.count pB = 2 := by
  decide

/-! ## Claim C3 -/

/-- C3: if the dotted path `ansible.inventories` is in the overlay's
replace-policy set (as extracted from the `$replace_vars` merge option),
the merged inventories equal the overlay's, whatever the base holds. -/
theorem c3_replace_policy (mergeOptions : List (Str × List Str)) (b o : MainConfig)
    (h : ("ansible.inventories").data ∈ attrMergerReplaceVars mergeOptions) :
    (mainMerge (attrMergerReplaceVars mergeOptions) b o).ansible.inventories
      = o.ansible.inventories := by
  simp [mainMerge, ansibleMerge, listMergeAttr, h]

/-- C3 witness at base `[/a]`, overlay `[/b]`,
`$replace_vars = ["ansible.inventories"]`. -/
theorem c3_replace_policy_witness :
    (mainMerge (attrMergerReplaceVars mo3) mc3base mc3over).ansible.inventories
      = mc3over.ansible.inventories :=
  c3_replace_policy mo3 mc3base mc3over (by decide)

/-! ## Claim C4 -/

/-- C4 (amended): merging assigns every scalar field the overlay's value
unconditionally, for every policy — in particular an absent overlay scalar
overwrites (clears) the base's value rather than keeping it. -/
theorem c4_scalar_overwrite (replaceVars : List Str) (b o : AnsibleConfig) :
    (ansibleMerge replaceVars b o).config_file = o.config_file ∧
    (ansibleMerge replaceVars b o).private_key_file = o.private_key_file ∧
    (ansibleMerge replaceVars b o).user = o.user ∧
    (ansibleMerge replaceVars b o).vault_encrypt_identity = o.vault_encrypt_identity ∧
    (ansibleMerge replaceVars b o).log_path = o.log_path :=
  ⟨rfl, rfl, rfl, rfl, rfl⟩

/-- C4 counterexample: merging a base with `user = "alice"` with an
all-default overlay (absent scalars) clears the user instead of keeping
the base's value. -/
theorem c4_counterexample :
    (ansibleMerge [] cfgScalarBase {}).user = none ∧
    cfgScalarBase.user = some (("alice").data) ∧
    ({} : AnsibleConfig).user = none := by
  decide

/-! ## Claim C5 -/

/-- C5 (amended): the encoded mapping contains no null value, and its
keys are characterised exactly: each optional scalar/path field is present
iff its value is non-None (with its serialised string), while every
list-valued field and the env mapping are always present — empty
collections are retained rather than omitted.  So exactly the
`None`-valued fields are omitted. -/
theorem c5_sparse_output (relMode : Bool) (d : PyPath) (c : AnsibleConfig) :
    (∀ kv ∈ encodeAnsible relMode d c, isNullVal kv.2 = false) ∧
    lookupKey .config_file (encodeAnsible relMode d c)
      = c.config_file.map (fun p => RawVal.prim (Prim.pstr (pathFieldSerialize relMode d p))) ∧
    lookupKey .inventories (encodeAnsible relMode d c)
      = some (RawVal.rlist (c.inventories.map (fun p => Prim.pstr (pathFieldSerialize relMode d p)))) ∧
    lookupKey .vault_ids (encodeAnsible relMode d c)
      = some (RawVal.rlist (c.vault_ids.map (fun v => Prim.pstr (vaultIdFieldSerialize relMode d v)))) ∧
    lookupKey .vault_password_files (encodeAnsible relMode d c)
      = some (RawVal.rlist (c.vault_password_files.map (fun p => Prim.pstr (pathFieldSerialize relMode d p)))) ∧
    lookupKey .user_scripts (encodeAnsible relMode d c)
      = some (RawVal.rlist (c.user_scripts.map (fun p => Prim.pstr (pathFieldSerialize relMode d p)))) ∧
    lookupKey .vars_files (encodeAnsible relMode d c)
      = some (RawVal.rlist (c.vars_files.map (fun p => Prim.pstr (pathFieldSerialize relMode d p)))) ∧
    lookupKey .vault_files (encodeAnsible relMode d c)
      = some (RawVal.rlist (c.vault_files.map (fun p => Prim.pstr (pathFieldSerialize relMode d p)))) ∧
    lookupKey .private_key_file (encodeAnsible relMode d c)
      = c.private_key_file.map (fun p => RawVal.prim (Prim.pstr (pathFieldSerialize relMode d p))) ∧
    lookupKey .user (encodeAnsible relMode d c)
      = c.user.map (fun s => RawVal.prim (Prim.pstr s)) ∧
    lookupKey .vault_encrypt_identity (encodeAnsible relMode d c)
      = c.vault_encrypt_identity.map (fun s => RawVal.prim (Prim.pstr s)) ∧
    lookupKey .log_path (encodeAnsible relMode d c)
      = c.log_path.map (fun p => RawVal.prim (Prim.pstr (pathFieldSerialize relMode d p))) ∧
    lookupKey .env_vars (encodeAnsible relMode d c)
      = some (RawVal.rmap (c.env_vars.map (fun kv => (kv.1, Prim.pstr (pyStr kv.2))))) := by
  refine ⟨?_, lookup_enc_config_file relMode d c, lookup_enc_inventories relMode d c,
    lookup_enc_vault_ids relMode d c, lookup_enc_vault_password_files relMode d c,
    lookup_enc_user_scripts relMode d c, lookup_enc_vars_files relMode d c,
    lookup_enc_vault_files relMode d c, lookup_enc_private_key_file relMode d c,
    lookup_enc_user relMode d c, lookup_enc_vault_encrypt_identity relMode d c,
    lookup_enc_log_path relMode d c, lookup_enc_env_vars relMode d c⟩
  intro kv hkv
  unfold encodeAnsible removeNoneValues at hkv
  have h := List.of_mem_filter hkv
  simpa using h

/-- C5 counterexample: the empty inventories list of the default settings
is written (as an empty collection) rather than omitted. -/
theorem c5_counterexample :
    (FieldKey.inventories, RawVal.rlist []) ∈ encodeAnsible true dir0 {} ∧
    ({} : AnsibleConfig).inventories = [] := by
  decide

/-! ## Claim C7 -/

theorem saveConfigDict_of_fail (sfs : SaveFs) (do_backup : Bool)
    (h : sfs.writeOk = false ∨ (do_backup = true ∧ sfs.backupOk = false)) :
    saveConfigDict sfs do_backup = false := by
  obtain ⟨bk, wr⟩ := sfs
  cases bk <;> cases wr <;> cases do_backup <;>
    simp_all [saveConfigDict, backupFile, writeFile]

/-- C7: with no explicit target, `force=False` and an unchanged
configuration, `save` performs no write and returns `False`; and whenever
the write step or the (attempted) backup step fails, `save` returns
`False` — the underlying exceptions are caught inside `save_config_dict`
(total function), never reaching the caller. -/
theorem c7_save (st : Configurator) (filename : Option PyPath)
    (force do_backup : Bool) (sfs : SaveFs) :
    (configChanged st = false →
      saveConfigurator st none false do_backup sfs = (false, false)) ∧
    ((sfs.writeOk = false ∨ (do_backup = true ∧ sfs.backupOk = false)) →
      (saveConfigurator st filename force do_backup sfs).1 = false) := by
  constructor
  · intro h
    simp [saveConfigurator, h]
  · intro h
    cases filename with
    | some f => simp [saveConfigurator, saveConfigDict_of_fail sfs do_backup h]
    | none =>
      by_cases hc : (!force && !(configChanged st)) = true
      · simp [saveConfigurator, hc]
      · simp [saveConfigurator, hc, saveConfigDict_of_fail sfs do_backup h]

/-- C7 witness: unchanged default state is a no-op; a failing write
reports `False`. -/
theorem c7_save_witness :
    saveConfigurator stEmpty none false false { backupOk := true, writeOk := true }
      = (false, false) ∧
    (saveConfigurator stEmpty none true false { backupOk := true, writeOk := false }).1
      = false :=
  ⟨(c7_save stEmpty none false false { backupOk := true, writeOk := true }).1 (by decide),
   (c7_save stEmpty none true false { backupOk := true, writeOk := false }).2
     (Or.inl rfl)⟩

/-! ## Claim C8 -/

/-- C8: an existing file is classified as a vault iff its first 15 bytes
equal `$ANSIBLE_VAULT;`; zero-length or shorter files are not vaults, nor
are non-existent files. -/
theorem c8_vault_detection :
    (∀ bytes : List Nat, isVault (some bytes) = true ↔ bytes.take 15 = ANSIBLE_VAULT_MAGIC) ∧
    (∀ bytes : List Nat, bytes.length < 15 → isVault (some bytes) = false) ∧
    isVault (some []) = false ∧
    isVault none = false := by
  have hlen : ANSIBLE_VAULT_MAGIC.length = 15 := by decide
  refine ⟨?_, ?_, by decide, rfl⟩
  · intro bytes
    simp [isVault, hlen]
  · intro bytes h
    have hne : bytes.take 15 ≠ ANSIBLE_VAULT_MAGIC := by
      intro heq
      have h1 : (bytes.take 15).length ≤ bytes.length := by
        simp [List.length_take]
      rw [heq, hlen] at h1
      omega
    simp [isVault, hlen]
    exact hne

/-- C8 witness: a 2-byte file is not a vault; a file starting with the
magic (followed by more bytes) is. -/
theorem c8_vault_detection_witness :
    isVault (some [36, 65]) = false ∧
    isVault (some (ANSIBLE_VAULT_MAGIC ++ [10])) = true :=
  ⟨c8_vault_detection.2.1 [36, 65] (by decide),
   (c8_vault_detection.1 (ANSIBLE_VAULT_MAGIC ++ [10])).mpr (by decide)⟩

/-! ## Claim C9 -/

theorem except_bind_ok {α β : Type} {x : Except Unit α} {f : α → Except Unit β} {b : β}
    (h : x >>= f = .ok b) : ∃ a, x = .ok a ∧ f a = .ok b := by
  cases x with
  | error e => simp [Bind.bind, Except.bind] at h
  | ok a => exact ⟨a, rfl, by simpa [Bind.bind, Except.bind] using h⟩

theorem envPairs_strings (kvs : List (Str × Prim)) (l : List (Str × Prim))
    (h : envPairs kvs = .ok l) : ∀ kv ∈ l, ∃ s, kv.2 = Prim.pstr s := by
  induction kvs generalizing l with
  | nil =>
    simp only [envPairs] at h
    cases h
    simp
  | cons kv rest ih =>
    obtain ⟨k, v⟩ := kv
    cases v with
    | pnull => simp [envPairs] at h
    | pint n => simp [envPairs] at h
    | pstr s =>
      simp only [envPairs] at h
      cases hrest : envPairs rest with
      | error e => simp [hrest, Except.map] at h
      | ok l2 =>
        rw [hrest] at h
        simp only [Except.map] at h
        cases h
        intro p hp
        rcases List.mem_cons.mp hp with hp | hp
        · exact ⟨s, by rw [hp]⟩
        · exact ih l2 hrest p hp

theorem decodeEnvVars_strings (r : Option RawVal) (l : List (Str × Prim))
    (h : decodeEnvVars r = .ok l) : ∀ kv ∈ l, ∃ s, kv.2 = Prim.pstr s := by
  match r with
  | none =>
    simp only [decodeEnvVars] at h
    cases h
    simp
  | some (.rmap kvs) => exact envPairs_strings kvs l h
  | some (.prim p) => simp [decodeEnvVars] at h
  | some (.rlist xs) => simp [decodeEnvVars] at h

theorem envDictInsert_pred (P : Prim → Prop) (acc : List (Str × Prim)) (k : Str) (v : Prim)
    (hacc : ∀ kv ∈ acc, P kv.2) (hv : P v) :
    ∀ kv ∈ envDictInsert acc k v, P kv.2 := by
  intro kv hkv
  unfold envDictInsert at hkv
  split at hkv
  · obtain ⟨kv0, hkv0, heq⟩ := List.mem_map.mp hkv
    by_cases hk : (kv0.1 == k) = true
    · rw [if_pos hk] at heq
      rw [← heq]
      exact hv
    · rw [if_neg hk] at heq
      rw [← heq]
      exact hacc kv0 hkv0
  · rcases List.mem_append.mp hkv with hm | hm
    · exact hacc kv hm
    · simp at hm
      subst hm
      exact hv

theorem pyDictOfPairs_pred (P : Prim → Prop) (l : List (Str × Prim))
    (hl : ∀ kv ∈ l, P kv.2) : ∀ kv ∈ pyDictOfPairs l, P kv.2 := by
  suffices h : ∀ acc, (∀ kv ∈ acc, P kv.2) →
      ∀ kv ∈ l.foldl (fun acc kv => envDictInsert acc kv.1 kv.2) acc, P kv.2 by
    exact h [] (fun kv hkv => absurd hkv (List.not_mem_nil kv))
  induction l with
  | nil =>
    intro acc hacc
    simp only [List.foldl_nil]
    exact hacc
  | cons kv0 rest ih =>
    intro acc hacc
    simp only [List.foldl_cons]
    exact ih (fun kv hkv => hl kv (List.mem_cons_of_mem kv0 hkv))
      (envDictInsert acc kv0.1 kv0.2)
      (envDictInsert_pred P acc kv0.1 kv0.2 hacc (hl kv0 (List.mem_cons_self kv0 rest)))

/-- C9 (amended): the environment mapping is string-keyed by type and its
values are strings after decoding and after merging; the env-vars setter
stringifies the keys but stores the values as given, so the values are
strings only when the caller passes string values. -/
theorem c9_env_strings :
    (∀ fs : Fs, ∀ home d : PyPath, ∀ raw : List (FieldKey × RawVal), ∀ c : AnsibleConfig,
      decodeAnsible fs home d raw = .ok c →
      ∀ kv ∈ c.env_vars, ∃ s, kv.2 = Prim.pstr s) ∧
    (∀ rv : List Str, ∀ b o : AnsibleConfig,
      (∀ kv ∈ o.env_vars, ∃ s, kv.2 = Prim.pstr s) →
      ∀ kv ∈ (ansibleMerge rv b o).env_vars, ∃ s, kv.2 = Prim.pstr s) ∧
    (∀ st : Configurator, ∀ value : List (Prim × Prim),
      (∀ kv ∈ value, ∃ s, kv.2 = Prim.pstr s) →
      ∀ kv ∈ (setAnsibleEnvVars st value).config.ansible.env_vars,
        ∃ s, kv.2 = Prim.pstr s) := by
  refine ⟨?_, ?_, ?_⟩
  · intro fs home d raw c h
    simp only [decodeAnsible, bind, pure] at h
    obtain ⟨a1, h1, h⟩ := except_bind_ok h
    obtain ⟨a2, h2, h⟩ := except_bind_ok h
    obtain ⟨a3, h3, h⟩ := except_bind_ok h
    obtain ⟨a4, h4, h⟩ := except_bind_ok h
    obtain ⟨a5, h5, h⟩ := except_bind_ok h
    obtain ⟨a6, h6, h⟩ := except_bind_ok h
    obtain ⟨a7, h7, h⟩ := except_bind_ok h
    obtain ⟨a8, h8, h⟩ := except_bind_ok h
    obtain ⟨a9, h9, h⟩ := except_bind_ok h
    obtain ⟨a10, h10, h⟩ := except_bind_ok h
    obtain ⟨a11, h11, h⟩ := except_bind_ok h
    obtain ⟨a12, h12, h⟩ := except_bind_ok h
    cases h
    exact decodeEnvVars_strings _ _ h12
  · intro rv b o ho kv hkv
    exact ho kv hkv
  · intro st value hval
    show ∀ kv ∈ pyDictOfPairs (value.map (fun kv => (pyStr kv.1, kv.2))),
      ∃ s, kv.2 = Prim.pstr s
    refine pyDictOfPairs_pred (fun v => ∃ s, v = Prim.pstr s) _ ?_
    intro kv hkv
    obtain ⟨kv0, hkv0, heq⟩ := List.mem_map.mp hkv
    obtain ⟨s, hs⟩ := hval kv0 hkv0
    exact ⟨s, by rw [← heq]; exact hs⟩

/-- C9 witness: string-valued setter input yields string values; a decode
of an explicit env mapping yields string values. -/
theorem c9_env_strings_witness :
    ∀ kv ∈ (setAnsibleEnvVars stEmpty
        [(Prim.pstr (("a").data), Prim.pstr (("1").data))]).config.ansible.env_vars,
      ∃ s, kv.2 = Prim.pstr s :=
  c9_env_strings.2.2 stEmpty [(Prim.pstr (("a").data), Prim.pstr (("1").data))]
    (by intro kv hkv; simp at hkv; exact ⟨("1").data, by rw [hkv]⟩)

/-- C9 counterexample: the setter called with the integer value `1` stores
the integer unchanged — the stored value is not a string, although the
claim requires every value to be a string after the setter runs. -/
theorem c9_counterexample :
    (setAnsibleEnvVars stEmpty [(Prim.pstr (("a").data), Prim.pint 1)]).config.ansible.env_vars
      = [((("a").data), Prim.pint 1)] ∧
    ∀ s, Prim.pint 1 ≠ Prim.pstr s :=
  ⟨by decide, fun s h => Prim.noConfusion h⟩

/-! ## Claim C10 -/

/-- C10: a raw path string that is absolute after home expansion decodes
to exactly that absolute path, for every config directory — joining a
directory with an absolute path leaves the absolute path intact (and the
deserialiser is a total function: it never fails). -/
theorem c10_absolute_paths (home d : PyPath) (s : Str)
    (habs : (parsePath (expanduser home s)).absolute = true) :
    pathFieldDeserialize home d s = parsePath (expanduser home s) ∧
    (∀ p : PyPath, p.absolute = true → joinPath d p = p) := by
  constructor
  · simp [pathFieldDeserialize, joinPath, habs]
  · intro p hp
    simp [joinPath, hp]

/-- C10 witness at the absolute raw string `/x` and config dir `/cfg`. -/
theorem c10_absolute_paths_witness :
    pathFieldDeserialize home0 dir0 (("/x").data)
        = parsePath (expanduser home0 (("/x").data)) ∧
    (∀ p : PyPath, p.absolute = true → joinPath dir0 p = p) :=
  c10_absolute_paths home0 dir0 (("/x").data) (by decide)

/-! ## Claim C6 -/

/-- C6 (amended): immediately after loading with no mutation,
`config_changed` is `False`; and after a setter call that changes the
settings aggregate, `config_changed` is `True` provided the settings
before and after are well-behaved (stored paths well-formed and absolute,
vault-identity labels free of `@` with canonical sources, env values
strings) — i.e. provided the absolute-mode serialisation distinguishes
them; change detection re-serialises in absolute-path mode and compares
structurally with the load-time snapshot. -/
theorem c6_change_detection (fs : Fs) (home f : PyPath)
    (raw : List (FieldKey × RawVal)) (st : Configurator) (c2 : AnsibleConfig)
    (hload : loadConfigurator fs home f raw = Except.ok st)
    (hgood : GoodSettings fs0 st.config.ansible)
    (hgood2 : GoodSettings fs0 c2)
    (hne : c2 ≠ st.config.ansible) :
    configChanged st = false ∧ configChanged (withSettings st c2) = true := by
  unfold loadConfigurator at hload
  cases hdec : decodeAnsible fs home (pathParent f) raw with
  | error e =>
    rw [hdec] at hload
    simp [Except.map] at hload
  | ok a =>
    rw [hdec] at hload
    simp only [Except.map] at hload
    have hst := Except.ok.inj hload
    subst hst
    constructor
    · unfold configChanged configToDict
      simp
    · unfold configChanged configToDict withSettings
      simp only
      have hneq : encodeAnsible false (pathParent f) c2
          ≠ encodeAnsible false (pathParent f) a := fun heq =>
        hne (encodeAnsible_abs_inj (pathParent f) (pathParent f) a c2 hgood hgood2 heq)
      simp [hneq]

/-- C6 witness: loading the empty raw mapping reports no change; changing
the remote user afterwards reports a change. -/
theorem c6_change_detection_witness :
    configChanged stEmpty = false ∧ configChanged (withSettings stEmpty c6new) = true :=
  c6_change_detection fs0 home0 cfgFile0 [] stEmpty c6new (by decide) (by decide)
    (by decide) (by decide)

/-- C6 counterexample: loading the vault-id string `a@/cfg/b@c` stores the
identity `(label a, source /cfg/b@c)`; the vault-ids setter called with
the distinct identity `(label a@/cfg/b, source c)` changes the resolved
field value, yet both serialise to the same string, so `config_changed`
stays `False`. -/
theorem c6_counterexample :
    loadConfigurator fs0 home0 cfgFile0 raw6 = Except.ok st6 ∧
    (setAnsibleVaultIds fs0 st6 [Sum.inr vid6]).config.ansible.vault_ids
      ≠ st6.config.ansible.vault_ids ∧
    configChanged (setAnsibleVaultIds fs0 st6 [Sum.inr vid6]) = false := by
  decide

end AnsibleConfigurator
